import Mathlib

/-!
Verification of the TurringChat backend (turring-backend-mvp).

Shallow embedding of the Python sources into Lean 4:
* floats are modelled as rationals (`ℚ`); Python `int(...)` truncation and
  `round(x, d)` (banker's rounding) are modelled exactly on rationals;
* randomness (`random.random`, `random.randint`, `random.choice`, ...) is
  modelled by an explicit stream of draws passed as an argument, so theorems
  quantify over every possible outcome of the internal random choices;
* `hashlib.sha256(...).hexdigest()` is modelled as an uninterpreted function
  `sha : String → String` passed as a parameter: every claim proved here is
  independent of the internals of SHA-256;
* `secrets.token_hex` and `time.time()` are modelled as parameters (the caller
  supplies the nonce / timestamp / current time).
-/

/-! ### Numeric helpers (Python semantics on `ℚ`) -/

/-- `max lo (min hi x)` — the clamping pattern used throughout the sources. -/
def clampQ (lo hi x : ℚ) : ℚ := max lo (min hi x)

/-- Python `int(x)`: truncation toward zero. -/
def pyInt (q : ℚ) : ℤ := if 0 ≤ q then ⌊q⌋ else ⌈q⌉

/-- Round-half-to-even on rationals, the rounding mode of Python `round`. -/
def roundHalfEven (q : ℚ) : ℤ :=
  let n := ⌊q⌋
  let f := q - (n : ℚ)
  if f < 1/2 then n
  else if 1/2 < f then n + 1
  else if n % 2 = 0 then n else n + 1

/-- Python `round(x, d)` on rationals. -/
def pyRound (d : ℕ) (q : ℚ) : ℚ := (roundHalfEven (q * 10 ^ d) : ℚ) / 10 ^ d

/-! ### Mood system — `app/utils/mood.py` -/

/-- `MoodState` dataclass: four raw fields (clamping happens in
`MoodState.init`, the model of `__init__`/`__post_init__`). -/
structure MoodState where
  aggressiveness : ℚ
  empathy : ℚ
  playfulness : ℚ
  analytical : ℚ
deriving DecidableEq, Repr

/-- `MoodState(a, e, p, an)` — construction runs `__post_init__`, clamping
`aggressiveness` to `[-1, 1]` and the other three fields to `[0, 1]`. -/
def MoodState.init (a e p an : ℚ) : MoodState :=
  { aggressiveness := max (-1 : ℚ) (min 1 a)
    empathy := max (0 : ℚ) (min 1 e)
    playfulness := max (0 : ℚ) (min 1 p)
    analytical := max (0 : ℚ) (min 1 an) }

/-- `MoodState()` with all defaults (0.0). -/
def freshMoodState : MoodState := MoodState.init 0 0 0 0

/-- The style dictionary produced by `analyze_user_style` (the three keys
read back by `update_mood` via `style.get(key, 0.0)`). -/
structure StyleScores where
  aggressive : ℚ
  emotional : ℚ
  logical : ℚ
deriving DecidableEq, Repr

/-- `update_mood(mood, style, alpha)` — exponential moving average toward
style-derived targets, returning a freshly constructed (hence clamped)
`MoodState`. -/
def update_mood (mood : MoodState) (style : StyleScores) (alpha0 : ℚ) : MoodState :=
  let alpha := max (0 : ℚ) (min 1 alpha0)
  let aggressive := style.aggressive
  let emotional := style.emotional
  let logical := style.logical
  let target_aggression := aggressive - 0.2
  let new_aggressiveness := mood.aggressiveness * (1 - alpha) + target_aggression * alpha
  let base_empathy := emotional * 0.8 + (1 - aggressive) * 0.2
  let new_empathy := mood.empathy * (1 - alpha) + base_empathy * alpha
  let base_playfulness := emotional * (1 - aggressive) * 0.7
  let new_playfulness := mood.playfulness * (1 - alpha) + base_playfulness * alpha
  let new_analytical := mood.analytical * (1 - alpha) + logical * alpha
  MoodState.init new_aggressiveness new_empathy new_playfulness new_analytical

/-- The documented range invariant for `MoodState`. -/
def moodInRange (m : MoodState) : Prop :=
  -1 ≤ m.aggressiveness ∧ m.aggressiveness ≤ 1 ∧
  0 ≤ m.empathy ∧ m.empathy ≤ 1 ∧
  0 ≤ m.playfulness ∧ m.playfulness ≤ 1 ∧
  0 ≤ m.analytical ∧ m.analytical ≤ 1

instance (m : MoodState) : Decidable (moodInRange m) := by
  unfold moodInRange
  infer_instance

/-- Generation parameters returned by `get_generation_params`. -/
structure GenParams where
  temperature : ℚ
  max_words : ℤ
  typo_rate : ℚ
deriving DecidableEq, Repr

/-- `get_generation_params(mood, base_temperature, base_max_words)` —
mood-driven adjustments followed by clamping and rounding, exactly as in
`app/utils/mood.py`. -/
def get_generation_params (mood : MoodState) (base_temperature : ℚ)
    (base_max_words : ℤ) : GenParams :=
  let temperature := base_temperature
  let max_words := base_max_words
  let typo_rate : ℚ := 0.22
  let temperature :=
    if mood.analytical > 0.3 then temperature - mood.analytical * 0.3 else temperature
  let max_words :=
    if mood.analytical > 0.3 then max_words + pyInt (mood.analytical * 6) else max_words
  let typo_rate :=
    if mood.analytical > 0.3 then typo_rate - mood.analytical * 0.1 else typo_rate
  let temperature :=
    if mood.playfulness > 0.3 then temperature + mood.playfulness * 0.4 else temperature
  let typo_rate :=
    if mood.playfulness > 0.3 then typo_rate + mood.playfulness * 0.15 else typo_rate
  let max_words :=
    if mood.aggressiveness > 0.4 then max_words - pyInt (mood.aggressiveness * 4)
    else if mood.aggressiveness < -0.3 then max_words + 2
    else max_words
  let temperature :=
    if mood.aggressiveness > 0.4 then temperature + mood.aggressiveness * 0.2
    else if mood.aggressiveness < -0.3 then temperature - 0.1
    else temperature
  let max_words := if mood.empathy > 0.5 then max_words + 3 else max_words
  let typo_rate := if mood.empathy > 0.5 then typo_rate - 0.05 else typo_rate
  let temperature := max (0.2 : ℚ) (min 1.5 temperature)
  let max_words := max (8 : ℤ) (min 30 max_words)
  let typo_rate := max (0 : ℚ) (min 0.5 typo_rate)
  { temperature := pyRound 2 temperature
    max_words := max_words
    typo_rate := pyRound 3 typo_rate }

/-! ### Persona generation — `app/services/persona_service.py`

`_seeded_rng(seed)` builds a `random.Random(int(sha256(seed)[:16], 16))`; it
is modelled as a stream `st : ℕ → ℕ` of draws that is a deterministic
function of the seed.  Each primitive (`choice`, `randint`, `sample`) reads
fixed positions of the stream, in source order.  The one call that uses the
process-global `random` module instead of the seeded `rng` —
`typo_rate = round(random.uniform(0.12, 0.2), 2)` — is modelled by the
separate argument `g` (the global `random.random()` draw in `[0,1)`),
which is NOT a function of the seed. -/

/-- `rng.choice(l)`: element selected by the stream value at position `i`
(the default is unreachable: every list passed is non-empty). -/
def rngChoice {α : Type} (dflt : α) (st : ℕ → ℕ) (i : ℕ) (l : List α) : α :=
  l.getD (st i % l.length) dflt

/-- `rng.choice` on string lists. -/
def rngChoiceS (st : ℕ → ℕ) (i : ℕ) (l : List String) : String :=
  rngChoice ("") st i l

/-- `rng.randint(a, b)`: inclusive-range integer draw. -/
def rngRandint (st : ℕ → ℕ) (i : ℕ) (a b : ℕ) : ℕ := a + st i % (b - a + 1)

/-- `rng.sample(pop, k)`: selection without replacement, driven by
consecutive stream positions starting at `i`. -/
def rngSample {α : Type} (dflt : α) (st : ℕ → ℕ) : ℕ → List α → ℕ → List α
  | _, _, 0 => []
  | i, pop, k + 1 =>
    if pop.length = 0 then []
    else
      let j := st i % pop.length
      pop.getD j dflt :: rngSample dflt st (i + 1) (pop.eraseIdx j) k

/-- The persona dictionary (`card`) returned by `generate_persona`. -/
structure PersonaCard where
  name : String
  gender : String
  age : ℕ
  city : String
  hometown : String
  years_in_city : ℕ
  job : String
  industry : String
  employer_type : String
  schedule : String
  micro_today : String
  bio : String
  quirks : String
  slang : List String
  dialect : String
  lang_pref : String
  vibes : String
  music : String
  food : String
  pet : String
  soft_opinion : String
  emoji_pool : List String
  emoji_rate : ℚ
  laughter : String
  filler_words : List String
  reply_word_cap : ℕ
  typo_rate : ℚ
  donots : List String
deriving DecidableEq, Repr

/-- `generate_persona(seed, lang_pref)`.  `st` is the seeded rng stream,
`g` the process-global `random.random()` draw feeding
`random.uniform(0.12, 0.2)` (a bug-relevant distinction: `g` does not
depend on the seed). -/
def generate_persona (st : ℕ → ℕ) (g : ℚ) (lang_pref : String) : PersonaCard :=
  let genders := ["female", "male", "nonbinary"]
  let female_names := ["Mara", "Nina", "Sofia", "Lea", "Emma", "Mia", "Lena", "Hannah", "Emily", "Charlotte"]
  let male_names := ["Alex", "Luca", "Jonas", "Max", "Leon", "Paul", "Elias", "Noah", "Finn", "Ben"]
  let nb_names := ["Sam", "Jules", "Robin", "Sascha", "Taylor", "Alexis", "Nico", "Charlie"]
  let cities := ["Berlin", "Hamburg", "Köln", "München", "Leipzig", "Düsseldorf", "Stuttgart", "Dresden", "Frankfurt", "Bremen"]
  let hometowns := ["Bochum", "Kassel", "Bielefeld", "Rostock", "Nürnberg", "Ulm", "Hannover", "Jena", "Augsburg", "Freiburg"]
  let jobs := ["UX researcher", "barista", "front-end dev", "product manager", "physio", "photographer", "nurse",
    "data analyst", "teacher", "marketing lead", "warehouse operator", "student", "copywriter", "data engineer",
    "graphic designer", "social media manager", "HR coordinator", "architect", "chef", "mechanic", "pharmacist",
    "accountant", "video editor", "translator", "recruiter", "sales rep", "DevOps engineer", "legal assistant",
    "personal trainer", "event planner", "journalist", "librarian", "dental hygienist", "real estate agent"]
  let industries := ["tech", "healthcare", "education", "logistics", "finance", "retail", "media", "public sector", "hospitality"]
  let hobbies := ["bouldering", "running 5k", "cycling", "yoga", "reading thrillers", "console gaming", "football on Sundays",
    "cooking ramen", "photography", "cinema nights", "coffee nerd stuff", "hiking", "board games", "baking",
    "thrifting", "vinyl digging", "tennis", "swimming", "gardening", "sketching", "guitar practice",
    "podcasts", "chess online", "standup comedy", "language learning", "crossfit", "DJing", "coding side projects",
    "pottery classes", "rock climbing", "meal prep", "urban exploring", "film photography", "indie concerts",
    "trivia nights", "volunteering", "skateboarding", "boxing", "journaling", "fermenting", "origami",
    "mixology", "calligraphy", "astronomy"]
  let texting_styles := ["dry humor, concise", "warm tone, lowercase start", "short replies, occasional emoji",
    "light sarcasm, contractions", "enthusiastic, a bit bubbly", "matter-of-fact, chill",
    "thoughtful pauses", "playful teasing", "genuine curiosity", "understated wit",
    "casual philosophizing", "deadpan delivery", "expressive punctuation", "minimalist responses",
    "overthinking everything", "relaxed storyteller", "self-deprecating humor", "enthusiastic oversharer"]
  let slang_sets : List (List String) := [["lol", "haha"], ["digga"], ["bro"], ["mate"], ["bruh"], []]
  let dialects := ["Standarddeutsch", "leichter Berliner Slang", "Kölsch-Note", "Hochdeutsch", "Denglisch", "English-first, understands German"]
  let emoji_bundles : List (List String) := [[], [], [], ["🙂"], ["😅"], ["👍"], []]
  let laughter_opts := ["lol", "haha", "", "", ""]
  let gender := rngChoiceS st 0 genders
  let name := rngChoiceS st 1
    (if gender = ("female") then female_names
     else if gender = ("male") then male_names else nb_names)
  let age := rngRandint st 2 20 39
  let city := rngChoiceS st 3 cities
  let hometown := rngChoiceS st 4 hometowns
  let years_in_city := rngRandint st 5 1 10
  let job := rngChoiceS st 6 jobs
  let industry := rngChoiceS st 7 industries
  let employer_type := rngChoiceS st 8 ["startup", "agency", "corporate", "clinic", "public office", "freelance"]
  let schedule := rngChoiceS st 9 ["early riser", "standard 9–5", "night owl"]
  let micro_today := rngChoiceS st 10 ["spilled coffee earlier", "bike tire was flat", "friend's birthday later",
    "rushed morning standup", "gym after work", "meal prepping tonight", "laundry mountain waiting",
    "dentist appointment later", "package arriving today", "car needs inspection soon",
    "meeting ran overtime", "forgot lunch at home", "train was delayed", "found 5€ on street",
    "neighbor's dog was loud", "wifi went down earlier", "new episode dropped", "plants needed watering",
    "trying new recipe tonight", "sister called earlier", "lost earbuds somewhere", "ordered pizza for dinner",
    "finished book yesterday", "apartment viewing tomorrow", "team won last night", "haircut this weekend",
    "deadline approaching", "roommate left dishes", "forgot umbrella again", "keys were missing",
    "elevator broken today", "got text from ex", "need groceries badly", "ran into old friend",
    "phone battery dying", "coffee machine broke", "printer jammed again", "cat knocked over plant"]
  let music := rngChoiceS st 11 ["indie", "electro", "hip hop", "pop", "rock", "lofi", "jazz", "techno", "folk", "r&b", "metal", "classical", "punk"]
  let food := rngChoiceS st 12 ["ramen", "pasta", "tacos", "salads", "curry", "falafel", "pizza", "kumpir", "sushi", "dim sum", "pho", "burgers", "dumplings", "shawarma"]
  let pet := rngChoiceS st 13 ["cat", "dog", "no pets", "plants count", "fish tank", "bird", "thinking about getting one"]
  let soft_opinion := rngChoiceS st 14 ["pineapple on pizza is fine", "meetings should be emails", "night buses are underrated",
    "sunny cold days > rainy warm ones", "decaf is a scam", "paper books > ebooks sometimes",
    "breakfast is overrated", "standing desks changed everything", "cold brew > espresso",
    "subtitle movies are better", "winter > summer", "cereal is a soup", "hot dogs are sandwiches",
    "GIFs are the best replies", "voice messages are annoying", "typing is faster than talking",
    "morning people are suspicious", "podcasts at 1.5x speed", "tabs > spaces", "light mode hurts",
    "cilantro tastes like soap", "mint chocolate is weird", "ketchup on fries is basic",
    "pumpkin spice is good", "comic sans isn't that bad", "NFTs make no sense",
    "dogs > cats obviously", "cats > dogs obviously", "remote work forever", "office has its perks"]
  let style := rngChoiceS st 15 texting_styles
  let slang := rngChoice ([] : List String) st 16 slang_sets
  let dialect := rngChoiceS st 17 dialects
  let emoji_pool := rngChoice ([] : List String) st 18 emoji_bundles
  let emoji_rate : ℚ := if emoji_pool.length ≠ 0 then 0.03 else 0.0
  let laughter := rngChoiceS st 19 laughter_opts
  let filler_words := rngSample ("") st 21 ["tbh", "ngl", "eig.", "halt", "so", "like", "uh", "um"] (rngRandint st 20 1 2)
  let reply_word_cap := rngRandint st 23 9 15
  let typo_rate := pyRound 2 (0.12 + (0.2 - 0.12) * g)
  let bio := name ++ (" (") ++ toString age ++ (") from ") ++ hometown ++ (", ")
    ++ toString years_in_city ++ ("y in ") ++ city ++ (". ")
    ++ job ++ (" in ") ++ industry ++ (" at a ") ++ employer_type ++ (". ")
    ++ ("Free time: ") ++ String.intercalate (", ") (rngSample ("") st 24 hobbies 2) ++ (".")
  let quirks := style ++ ("; tiny typos sometimes; slang: ")
    ++ (if slang.length ≠ 0 then String.intercalate (", ") slang else ("none"))
    ++ ("; dialect: ") ++ dialect ++ ("; schedule: ") ++ schedule
    ++ ("; today: ") ++ micro_today ++ (".")
  { name := name
    gender := gender
    age := age
    city := city
    hometown := hometown
    years_in_city := years_in_city
    job := job
    industry := industry
    employer_type := employer_type
    schedule := schedule
    micro_today := micro_today
    bio := bio
    quirks := quirks
    slang := slang
    dialect := dialect
    lang_pref := lang_pref
    vibes := rngChoiceS st 26 ["smart", "cool", "witty", "grounded", "curious", "chill"]
    music := music
    food := food
    pet := pet
    soft_opinion := soft_opinion
    emoji_pool := emoji_pool
    emoji_rate := emoji_rate
    laughter := laughter
    filler_words := filler_words
    reply_word_cap := reply_word_cap
    typo_rate := typo_rate
    donots := ["no encyclopedic facts or exact stats",
      "no system/model talk",
      "no time-stamped factual claims"] }

/-! ### Commit-reveal — `app/utils/commit_reveal.py` -/

/-- `commit_assignment(assign_value, nonce, ts_ms)`:
`sha256(f"{assign_value}|{nonce}|{ts_ms}").hexdigest()`, with SHA-256
uninterpreted. -/
def commit_assignment (sha : String → String) (assign_value nonce : String)
    (ts_ms : ℤ) : String :=
  sha (assign_value ++ ("|") ++ nonce ++ ("|") ++ toString ts_ms)

/-- `commit_selection(opponent_type)` — the nonce and timestamp are generated
by `secrets.token_hex(16)` / `time.time()`; they appear as parameters. -/
def commit_selection (sha : String → String) (opponent_type nonce : String)
    (ts_ms : ℤ) : String × String × ℤ :=
  (sha (opponent_type ++ ("|") ++ nonce ++ ("|") ++ toString ts_ms), nonce, ts_ms)

/-! ### Game state — `app/models/game.py` and `app/services/game_service.py` -/

/-- The `preset_commit` dict passed from `/match` resolution into
`GameState.__init__` (`{"opponent_type": ..., "hash": ..., "nonce": ...,
"ts": ...}`). -/
structure PresetCommit where
  opponent_type : String
  hash : String
  nonce : String
  ts : ℤ
deriving DecidableEq, Repr

/-- The dict returned by `GameState.reveal()`. -/
structure Reveal where
  opponent_type : String
  nonce : String
  commit_ts : ℤ
deriving DecidableEq, Repr

/-- `GameState` (WebSocket handles and the conversation logger are outside
the model). -/
structure GameState where
  opponent_type : String
  started_at : ℤ
  round_deadline : ℤ
  turn : String
  history : List String
  score_a : ℤ
  score_b : ℤ
  ended : Bool
  ai_mood : MoodState
  nonce : String
  commit_ts : ℤ
  commit_hash : String
  persona : PersonaCard

/-- `GameState.__init__`.  `now` models `int(time.time())`, `nonce` the
`secrets.token_hex(16)` draw, `commit_ts` the `int(time.time() * 1000)`
draw, `round_limit_secs` the value of `settings.round_limit_secs`, and
`generate_persona_func` the injected persona generator (the source takes
the same parameter, defaulting to `generate_persona`). -/
def GameState.init (sha : String → String) (opponent_type : String)
    (now : ℤ) (round_limit_secs : ℤ) (nonce : String) (commit_ts : ℤ)
    (preset_commit : Option PresetCommit)
    (generate_persona_func : String → PersonaCard) : GameState :=
  let commit_hash := commit_assignment sha opponent_type nonce commit_ts
  let seed := opponent_type ++ (":") ++ commit_hash ++ (":") ++ nonce
  let base : GameState :=
    { opponent_type := opponent_type
      started_at := now
      round_deadline := now + round_limit_secs
      turn := "A"
      history := []
      score_a := 0
      score_b := 0
      ended := false
      ai_mood := freshMoodState
      nonce := nonce
      commit_ts := commit_ts
      commit_hash := commit_hash
      persona := generate_persona_func seed }
  match preset_commit with
  | none => base
  | some p =>
    let seed2 := p.opponent_type ++ (":") ++ p.hash ++ (":") ++ p.nonce
    { base with
      opponent_type := p.opponent_type
      nonce := p.nonce
      commit_ts := p.ts
      commit_hash := p.hash
      persona := generate_persona_func seed2 }

/-- `GameState.reveal()`. -/
def GameState.reveal (g : GameState) : Reveal :=
  { opponent_type := g.opponent_type, nonce := g.nonce, commit_ts := g.commit_ts }

/-- Property P1: the reveal tuple re-hashes to the commit hash the client
received in `match_start`. -/
def commitVerifies (sha : String → String) (g : GameState) : Prop :=
  commit_assignment sha (g.reveal).opponent_type (g.reveal).nonce
    (g.reveal).commit_ts = g.commit_hash

/-- `SCORE_CORRECT` (`app/services/game_service.py`). -/
def SCORE_CORRECT : ℤ := 100

/-- `SCORE_WRONG` (`app/services/game_service.py`). -/
def SCORE_WRONG : ℤ := -200

/-- Python `str.upper()` restricted to ASCII (all guesses compared against
the ASCII literals `"AI"` / `"HUMAN"`). -/
def pyUpper (s : String) : String := String.map Char.toUpper s

/-- The `end` frame emitted by `run_game_ai` on a guess. -/
structure EndFrame where
  reason : String
  correct : Bool
  score_delta : ℤ
  reveal : Reveal
deriving DecidableEq, Repr

/-- The `mtype == "guess"` branch of `run_game_ai`: normalize the guess,
score it against the literal `"AI"`, emit the `end` frame, mark ended. -/
def run_game_ai_guess (game : GameState) (guess_in : Option String) :
    GameState × EndFrame :=
  let guess := pyUpper (guess_in.getD (""))
  let correct : Bool := guess == ("AI")
  let delta := if correct then SCORE_CORRECT else SCORE_WRONG
  let game' := { game with score_a := game.score_a + delta, ended := true }
  (game',
   { reason := "guess"
     correct := correct
     score_delta := game'.score_a
     reveal := game.reveal })

/-! ### Humanization — `app/utils/humanization.py`

Text is modelled as `List Char` (Python string indexing / slicing is
per-character).  The module-level `random` draws are modelled by a pair of
streams (`fs` for `random.random()`, `ns` for integer/choice draws) read at
consecutive positions; every theorem quantifies over the streams, i.e. over
every outcome of the internal random choices. -/

/-- The random source for `app/utils/humanization.py`. -/
structure RandS where
  fs : ℕ → ℚ
  ns : ℕ → ℕ

/-- Whitespace for `str.strip` / `str.split` (ASCII). -/
def pyIsSpace (c : Char) : Bool := c == ' ' || c == '\n' || c == '\t' || c == '\r'

/-- Python `str.isalpha` restricted to ASCII letters. -/
def pyIsAlpha (c : Char) : Bool :=
  ('a' ≤ c && c ≤ 'z') || ('A' ≤ c && c ≤ 'Z')

/-- Python `str.isupper` on a single ASCII character. -/
def pyIsUpper (c : Char) : Bool := 'A' ≤ c && c ≤ 'Z'

/-- `str.lstrip()`. -/
def pyLstrip (s : List Char) : List Char := s.dropWhile pyIsSpace

/-- `str.rstrip()`. -/
def pyRstrip (s : List Char) : List Char := (s.reverse.dropWhile pyIsSpace).reverse

/-- `str.strip()`. -/
def pyStrip (s : List Char) : List Char := pyRstrip (pyLstrip s)

/-- The character class of the regex `[.!?]{2,}`. -/
def isEndPunct (c : Char) : Bool := c == '.' || c == '!' || c == '?'

/-- `re.sub(r"[.!?]{2,}", ".", s)`: every maximal run of two or more
sentence-ending punctuation marks collapses to a single period. -/
def collapsePunct (s : List Char) : List Char :=
  ((s.splitBy (fun a b => isEndPunct a && isEndPunct b)).map
    (fun g => if 2 ≤ g.length then ['.'] else g)).flatten

/-- `s.replace("\n", " ")`. -/
def replaceNewlines (s : List Char) : List Char :=
  s.map (fun c => if c == '\n' then ' ' else c)

/-- `str.split()` (split on whitespace runs, no empty words). -/
def pySplit (s : List Char) : List (List Char) :=
  (s.splitBy (fun a b => pyIsSpace a == pyIsSpace b)).filter
    (fun g => g.all (fun c => !pyIsSpace c))

/-- Python slicing `l[:m]` (negative `m` counts from the end). -/
def pySliceTo {α : Type} (m : ℤ) (l : List α) : List α :=
  if 0 ≤ m then l.take m.toNat else l.take ((l.length : ℤ) + m).toNat

/-- `_limit_words(text, max_words)`. -/
def limit_words (text : List Char) (max_words : ℤ) : List Char :=
  let words := pySplit (pyStrip text)
  if (words.length : ℤ) ≤ max_words then pyStrip text
  else List.intercalate ([' ']) (pySliceTo max_words words)

/-- `QWERTY_NEIGHBORS` from `app/constants.py`. -/
def qwertyNeighbors (c : Char) : List Char :=
  match c with
  | 'a' => ['q', 's'] | 'b' => ['v', 'n'] | 'c' => ['x', 'v'] | 'd' => ['s', 'f']
  | 'e' => ['w', 'r'] | 'f' => ['d', 'g'] | 'g' => ['f', 'h'] | 'h' => ['g', 'j']
  | 'i' => ['u', 'o'] | 'j' => ['h', 'k'] | 'k' => ['j', 'l'] | 'l' => ['k']
  | 'm' => ['n'] | 'n' => ['b', 'm'] | 'o' => ['i', 'p'] | 'p' => ['o']
  | 'q' => ['w', 'a'] | 'r' => ['e', 't'] | 's' => ['a', 'd'] | 't' => ['r', 'y']
  | 'u' => ['y', 'i'] | 'v' => ['c', 'b'] | 'w' => ['q', 'e'] | 'x' => ['z', 'c']
  | 'y' => ['t', 'u'] | 'z' => ['x']
  | _ => []

/-- `_swap_adjacent(s)`: swap two adjacent characters (one `randint` draw
when `len(s) ≥ 4`). -/
def swap_adjacent (r : RandS) (i : ℕ) (s : List Char) : List Char × ℕ :=
  if s.length < 4 then (s, i)
  else
    let j := 1 + r.ns i % (s.length - 2)
    if pyIsAlpha (s.getD j ' ') && pyIsAlpha (s.getD (j + 1) ' ') then
      (s.take j ++ [s.getD (j + 1) ' ', s.getD j ' '] ++ s.drop (j + 2), i + 1)
    else (s, i + 1)

/-- `_neighbor_replace(s)`: replace one alphabetic character by a keyboard
neighbor (a `choice` over indices, then a `choice` over neighbors). -/
def neighbor_replace (r : RandS) (i : ℕ) (s : List Char) : List Char × ℕ :=
  let idxs := (List.range s.length).filter (fun k => pyIsAlpha (s.getD k ' '))
  if idxs.length = 0 then (s, i)
  else
    let k := idxs.getD (r.ns i % idxs.length) 0
    let ch := Char.toLower (s.getD k ' ')
    let nbrs := qwertyNeighbors ch
    if nbrs.length ≠ 0 then
      let rep0 := nbrs.getD (r.ns (i + 1) % nbrs.length) ' '
      let rep := if pyIsUpper (s.getD k ' ') then Char.toUpper rep0 else rep0
      (s.set k rep, i + 2)
    else (s, i + 1)

/-- `_drop_random_char(s)`: drop one alphabetic character. -/
def drop_random_char (r : RandS) (i : ℕ) (s : List Char) : List Char × ℕ :=
  let letters := (List.range s.length).filter (fun k => pyIsAlpha (s.getD k ' '))
  if letters.length = 0 then (s, i)
  else
    let k := letters.getD (r.ns i % letters.length) 0
    (s.eraseIdx k, i + 1)

/-- The `for _ in range(n): s = random.choice(ops)(s)` loop of
`_humanize_typos` (`ops = [_swap_adjacent, _neighbor_replace,
_drop_random_char]`). -/
def typosLoop (r : RandS) : ℕ → List Char → ℕ → List Char × ℕ
  | i, s, 0 => (s, i)
  | i, s, n + 1 =>
    let opIdx := r.ns i % 3
    let si :=
      if opIdx = 0 then swap_adjacent r (i + 1) s
      else if opIdx = 1 then neighbor_replace r (i + 1) s
      else drop_random_char r (i + 1) s
    typosLoop r si.2 si.1 n

/-- `_humanize_typos(text, rate, max_typos)`. -/
def humanize_typos (r : RandS) (i : ℕ) (text : List Char) (rate : ℚ)
    (max_typos : ℕ) : List Char × ℕ :=
  if text.length = 0 then (text, i)
  else if rate < r.fs i then (text, i + 1)
  else
    let n := 1 + r.ns (i + 1) % max 1 max_typos
    let si := typosLoop r (i + 2) text n
    let s := si.1
    if r.fs si.2 < 0.25 ∧ s.length ≠ 0 ∧ pyIsAlpha (s.getD 0 ' ') then
      (Char.toLower (s.getD 0 ' ') :: s.drop 1, si.2 + 1)
    else (s, si.2 + 1)

/-- The persona dictionary as read by `humanize_reply` (each `persona.get`
with its default; `Option` marks keys that may be absent). -/
structure HPersona where
  reply_word_cap : Option ℤ
  typo_rate : Option ℚ
  emoji_pool : List (List Char)
  emoji_rate : Option ℚ
  laughter : List Char
  filler_words : List (List Char)

/-- `s.startswith(("I ", "I'"))`. -/
def startsWithIForms (s : List Char) : Bool :=
  match s with
  | 'I' :: c :: _ => c == ' ' || c == Char.ofNat 39
  | _ => false

/-- The deterministic prefix of `humanize_reply`: strip, collapse sentence
punctuation, drop newlines, word-cap at
`min(max_words, persona.reply_word_cap) + 8`, hard-truncate to 180
characters (right-stripped). -/
def humanize_prepare (text : List Char) (max_words : ℤ)
    (persona : Option HPersona) : List Char :=
  let s := pyStrip text
  let s := collapsePunct s
  let s := replaceNewlines s
  let cap : ℤ :=
    match persona with
    | some p => min max_words (p.reply_word_cap.getD max_words)
    | none => max_words
  let s := limit_words s (cap + 8)
  if 180 < s.length then pyRstrip (s.take 180) else s

/-- The `if persona:` decoration block of `humanize_reply`: optional emoji
append, optional laughter/filler append, optional final-period drop,
optional first-letter lowercasing. -/
def humanize_decorate (r : RandS) (i0 : ℕ) (s0 : List Char) (p : HPersona) :
    List Char :=
    let s := s0
    let i := i0
    let emoji_pool := p.emoji_pool
    let emoji_rate := p.emoji_rate.getD 0
    let laughter := pyStrip p.laughter
    let filler := p.filler_words
    let si1 : List Char × ℕ :=
      if emoji_pool.length ≠ 0 then
        if r.fs i < emoji_rate * 2 then
          (pyStrip (s ++ [' '] ++ emoji_pool.getD (r.ns (i + 1) % emoji_pool.length) []), i + 2)
        else (s, i + 1)
      else (s, i)
    let s := si1.1
    let i := si1.2
    -- `if laughter and random.random() < 0.5: ... elif filler and
    -- random.random() < 0.6: ...` — when `laughter` is non-empty but its
    -- 0.5 coin fails, Python falls through to the `elif` and may still
    -- append a filler word.  The laughter coin is drawn only when
    -- `laughter` is non-empty (short-circuit), so the `elif` reads the
    -- stream at `i + 2` in that case and at `i + 1` otherwise.
    let si2 : List Char × ℕ :=
      if r.fs i < 0.15 then
        if laughter.length ≠ 0 ∧ r.fs (i + 1) < 0.5 then
          (s ++ [' '] ++ laughter, i + 2)
        else
          let j := if laughter.length ≠ 0 then i + 2 else i + 1
          if filler.length ≠ 0 then
            if r.fs j < 0.6 then
              let fw := filler.getD (r.ns (j + 1) % filler.length) []
              if r.fs (j + 2) < 0.5 then (fw ++ [' '] ++ s, j + 3)
              else (s ++ [' '] ++ fw, j + 3)
            else (s, j + 1)
          else (s, j)
      else (s, i + 1)
    let s := si2.1
    let i := si2.2
    let s :=
      if r.fs i < 0.1 ∧ s.getLast? = some '.' then s.dropLast else s
    let i := i + 1
    let s :=
      if r.fs i < 0.05 ∧ s.length ≠ 0 ∧ pyIsUpper (s.getD 0 ' ') ∧
          ¬ startsWithIForms s = true then
        Char.toLower (s.getD 0 ' ') :: s.drop 1
      else s
    s

/-- `humanize_reply(text, max_words, typo_rate, max_typos, persona)`:
prepare, inject typos at the persona's (or the given) typo rate, then run
the persona decoration block. -/
def humanize_reply (r : RandS) (i : ℕ) (text : List Char) (max_words : ℤ)
    (typo_rate : ℚ) (max_typos : ℕ) (persona : Option HPersona) : List Char :=
  let s := humanize_prepare text max_words persona
  let actual_typo_rate :=
    match persona with
    | some p => p.typo_rate.getD typo_rate
    | none => typo_rate
  let si := humanize_typos r i s actual_typo_rate max_typos
  match persona with
  | none => si.1
  | some p => humanize_decorate r si.2 si.1 p

/-! ### Matchmaking — `app/services/matchmaking_service.py`,
`app/models/game.py`, `app/routers/matchmaking.py`

Tickets are `ℕ` (the source draws them via `secrets.token_hex(10)`; the
model takes them as parameters, with the freshness of a drawn ticket an
explicit hypothesis).  The dictionaries `pending_requests` and `pairs` are
insertion-ordered association lists, matching Python dict iteration order.
The coin flips of `try_pair_with_oldest` (`random.random() < H2H_PROB` and
the uniform choice of the AI-reserved ticket) are boolean parameters, so
theorems quantify over every outcome. -/

/-- `PendingReq` from `app/models/game.py`. -/
structure PendingReq where
  ticket : ℕ
  token : Option String
  created_at : ℚ
  expires_at : ℚ
  status : String
  reserved_ai : Bool
  pair_id : Option String
  opponent_type : Option String
  commit_hash : Option String
  commit_nonce : Option String
  commit_ts : Option ℤ
deriving DecidableEq, Repr

/-- `PendingReq.__init__(ticket, token, now)` (window =
`settings.match_window_secs`). -/
def PendingReq.init (ticket : ℕ) (token : Option String) (now window : ℚ) :
    PendingReq :=
  { ticket := ticket
    token := token
    created_at := now
    expires_at := now + window
    status := "pending"
    reserved_ai := false
    pair_id := none
    opponent_type := none
    commit_hash := none
    commit_nonce := none
    commit_ts := none }

/-- `PairSlot` from `app/models/game.py` (WebSocket slots omitted). -/
structure PairSlot where
  pair_id : String
  a_ticket : ℕ
  b_ticket : ℕ
  deadline : ℚ
deriving DecidableEq, Repr

/-- The module-level stores `pending_requests` and `pairs`. -/
structure MMState where
  pending_requests : List (ℕ × PendingReq)
  pairs : List (String × PairSlot)
deriving DecidableEq, Repr

/-- `pending_requests.get(t)`. -/
def lookupReq (s : MMState) (t : ℕ) : Option PendingReq :=
  (s.pending_requests.lookup t)

/-- In-place mutation of the request object stored under `t`. -/
def updateReq (s : MMState) (t : ℕ) (f : PendingReq → PendingReq) : MMState :=
  { s with pending_requests :=
      s.pending_requests.map (fun p => if p.1 = t then (p.1, f p.2) else p) }

/-- Python dict assignment `d[k] = v`: overwrite in place, or append. -/
def dictInsert (l : List (ℕ × PendingReq)) (k : ℕ) (v : PendingReq) :
    List (ℕ × PendingReq) :=
  if (l.lookup k).isSome then l.map (fun p => if p.1 = k then (k, v) else p)
  else l ++ [(k, v)]

/-- The candidate scan of `try_pair_with_oldest`: the oldest pending,
unreserved, unexpired request other than `cur` (iteration in insertion
order; strict `<` on `created_at`, so ties go to the earlier entry). -/
def findCandidate (reqs : List (ℕ × PendingReq)) (cur : ℕ) (now : ℚ) :
    Option (ℕ × ℚ) :=
  reqs.foldl
    (fun best p =>
      if p.1 = cur ∨ p.2.status ≠ ("pending") ∨ p.2.reserved_ai = true ∨
          p.2.expires_at ≤ now then best
      else
        match best with
        | none => some (p.1, p.2.created_at)
        | some b => if p.2.created_at < b.2 then some (p.1, p.2.created_at) else b)
    none

/-- `try_pair_with_oldest(cur_ticket)`.  `heads` is the
`random.random() < H2H_PROB` flip, `pick_cur` the uniform choice of which
of the two gets the AI reservation; `pid`, `n1`/`ts1`, `n2`/`ts2` are the
generated pair id and the two `commit_selection("HUMAN")` nonce/timestamp
draws (candidate first, as in the `for req in (a, b)` loop). -/
def try_pair_with_oldest (sha : String → String) (cur : ℕ) (now : ℚ)
    (heads pick_cur : Bool) (pid : String) (n1 : String) (ts1 : ℤ)
    (n2 : String) (ts2 : ℤ) (s : MMState) : MMState :=
  match findCandidate s.pending_requests cur now with
  | none => s
  | some cand =>
    if heads then
      let s := updateReq s cand.1 (fun a =>
        { a with
          status := "ready_h2h"
          pair_id := some pid
          opponent_type := some ("HUMAN")
          commit_hash := some ((commit_selection sha ("HUMAN") n1 ts1).1)
          commit_nonce := some n1
          commit_ts := some ts1 })
      let s := updateReq s cur (fun b =>
        { b with
          status := "ready_h2h"
          pair_id := some pid
          opponent_type := some ("HUMAN")
          commit_hash := some ((commit_selection sha ("HUMAN") n2 ts2).1)
          commit_nonce := some n2
          commit_ts := some ts2 })
      { s with pairs := s.pairs ++
          [(pid, { pair_id := pid, a_ticket := cand.1, b_ticket := cur,
                   deadline := now + 20 })] }
    else
      let chosen := if pick_cur then cur else cand.1
      updateReq s chosen (fun r => { r with reserved_ai := true })

/-- `POST /match/request`: register a fresh pending request, then attempt
pairing (both under `pending_lock`). -/
def match_request (sha : String → String) (ticket : ℕ) (token : Option String)
    (now window : ℚ) (heads pick_cur : Bool) (pid : String) (n1 : String)
    (ts1 : ℤ) (n2 : String) (ts2 : ℤ) (s : MMState) : MMState :=
  let req := PendingReq.init ticket token now window
  let s1 : MMState :=
    { s with pending_requests := dictInsert s.pending_requests ticket req }
  try_pair_with_oldest sha ticket now heads pick_cur pid n1 ts1 n2 ts2 s1

/-- `time_left(req)`. -/
def time_left (req : PendingReq) (now : ℚ) : ℚ := max 0 (req.expires_at - now)

/-- The dict returned by `resolve_match_status` (absent keys are `none`). -/
structure MatchResult where
  status : String
  ws_url : Option String
  commit_hash : Option String
  time_left : Option ℚ
deriving DecidableEq, Repr

/-- `resolve_match_status(req)`: returns the (possibly mutated) request and
the response dict.  `n`/`ts` are the `commit_selection("AI")` draws used
when the request expires. -/
def resolve_match_status (sha : String → String) (now : ℚ) (n : String)
    (ts : ℤ) (req : PendingReq) : PendingReq × MatchResult :=
  if req.status = ("ready_h2h") then
    (req,
     { status := "ready_h2h"
       ws_url := some (("/ws/pair?pair_id=") ++ (req.pair_id.getD ("None")) ++
         ("&ticket=") ++ toString req.ticket)
       commit_hash := req.commit_hash
       time_left := some (time_left req now) })
  else if req.status = ("ready_ai") then
    (req,
     { status := "ready_ai"
       ws_url := some (("/ws/match?ticket=") ++ toString req.ticket)
       commit_hash := req.commit_hash
       time_left := some (time_left req now) })
  else if req.status = ("canceled") then
    (req, { status := "canceled", ws_url := none, commit_hash := none,
            time_left := none })
  else
    let tl := time_left req now
    if 0 < tl then
      (req, { status := "pending", ws_url := none, commit_hash := none,
              time_left := some tl })
    else if req.reserved_ai then
      let req' := { req with
        status := "ready_ai"
        opponent_type := some ("AI")
        commit_hash := some ((commit_selection sha ("AI") n ts).1)
        commit_nonce := some n
        commit_ts := some ts }
      (req',
       { status := "ready_ai"
         ws_url := some (("/ws/match?ticket=") ++ toString req.ticket)
         commit_hash := req'.commit_hash
         time_left := some 0 })
    else
      let req' := { req with
        status := "ready_ai"
        opponent_type := some ("AI")
        commit_hash := some ((commit_selection sha ("AI") n ts).1)
        commit_nonce := some n
        commit_ts := some ts }
      (req',
       { status := "ready_ai"
         ws_url := some (("/ws/match?ticket=") ++ toString req.ticket)
         commit_hash := req'.commit_hash
         time_left := some 0 })

/-- `GET /match/status`: look the ticket up and resolve (mutations to the
request object persist in the store). -/
def match_status (sha : String → String) (ticket : ℕ) (now : ℚ) (n : String)
    (ts : ℤ) (s : MMState) : MMState × MatchResult :=
  match lookupReq s ticket with
  | none => (s, { status := "gone", ws_url := none, commit_hash := none,
                  time_left := none })
  | some req =>
    let rr := resolve_match_status sha now n ts req
    (updateReq s ticket (fun _ => rr.1), rr.2)

/-- `cancel_match(ticket)`.  `n`/`ts` are the `commit_selection("AI")` draws
used when a paired partner is converted to AI. -/
def cancel_match (sha : String → String) (ticket : ℕ) (n : String) (ts : ℤ)
    (s : MMState) : MMState :=
  match lookupReq s ticket with
  | none => s
  | some req =>
    if req.status = ("pending") then
      updateReq s ticket (fun r => { r with status := "canceled" })
    else if req.status = ("ready_h2h") then
      let s1 : MMState :=
        match req.pair_id with
        | none => s
        | some pid =>
          match s.pairs.lookup pid with
          | none => s
          | some pair =>
            let other_ticket :=
              if pair.a_ticket = ticket then pair.b_ticket else pair.a_ticket
            let s' :=
              match lookupReq s other_ticket with
              | none => s
              | some other =>
                if other.status = ("ready_h2h") then
                  updateReq s other_ticket (fun r =>
                    { r with
                      status := "ready_ai"
                      pair_id := none
                      opponent_type := some ("AI")
                      commit_hash := some ((commit_selection sha ("AI") n ts).1)
                      commit_nonce := some n
                      commit_ts := some ts })
                else s
            { s' with pairs := s'.pairs.filter (fun p => p.1 ≠ pid) }
      updateReq s1 ticket (fun r => { r with status := "canceled" })
    else s

/-- The client-visible matchmaking operations. -/
inductive MMOp where
  | request (ticket : ℕ) (token : Option String) (now window : ℚ)
      (heads pick_cur : Bool) (pid : String) (n1 : String) (ts1 : ℤ)
      (n2 : String) (ts2 : ℤ)
  | statusQ (ticket : ℕ) (now : ℚ) (n : String) (ts : ℤ)
  | cancel (ticket : ℕ) (n : String) (ts : ℤ)

/-- Apply one operation to the store. -/
def MMOp.applyOp (sha : String → String) (op : MMOp) (s : MMState) : MMState :=
  match op with
  | .request ticket token now window heads pick_cur pid n1 ts1 n2 ts2 =>
    match_request sha ticket token now window heads pick_cur pid n1 ts1 n2 ts2 s
  | .statusQ ticket now n ts => (match_status sha ticket now n ts s).1
  | .cancel ticket n ts => cancel_match sha ticket n ts s

/-- Apply a sequence of operations. -/
def applyOps (sha : String → String) (ops : List MMOp) (s : MMState) : MMState :=
  ops.foldl (fun s op => op.applyOp sha s) s

/-- Every stored status is one of the four legal strings. -/
def statusWF (s : MMState) : Bool :=
  s.pending_requests.all (fun p =>
    p.2.status == ("pending") || p.2.status == ("ready_ai") ||
    p.2.status == ("ready_h2h") || p.2.status == ("canceled"))

/-- Every `request` in the sequence uses a ticket not yet in the store
(`secrets.token_hex(10)` collisions are excluded). -/
def freshTickets (sha : String → String) : List MMOp → MMState → Bool
  | [], _ => true
  | op :: rest, s =>
    (match op with
     | .request ticket _ _ _ _ _ _ _ _ _ _ => (lookupReq s ticket).isNone
     | _ => true) && freshTickets sha rest (op.applyOp sha s)

/-- Well-formedness of the store: ticket keys are distinct (each ticket is a
fresh `secrets.token_hex(10)`) and every stored status is legal. -/
def mmWF (s : MMState) : Prop :=
  (s.pending_requests.map Prod.fst).Nodup ∧ statusWF s = true

instance (s : MMState) : Decidable (mmWF s) := by
  unfold mmWF
  infer_instance

/-- The status transitions the code actually performs:
`pending` may move anywhere, `ready_h2h` may still move to `ready_ai`
(partner cancel) or `canceled` (own cancel); `ready_ai` and `canceled`
are terminal. -/
def statusStep (a b : String) : Prop :=
  b = a ∨ a = ("pending") ∨
  (a = ("ready_h2h") ∧ (b = ("ready_ai") ∨ b = ("canceled")))

instance (a b : String) : Decidable (statusStep a b) := by
  unfold statusStep
  infer_instance

/-! ### Helper lemmas -/

theorem clampQ_le_hi (lo hi x : ℚ) (h : lo ≤ hi) : clampQ lo hi x ≤ hi := by
  unfold clampQ
  exact max_le h (min_le_left _ _)

theorem le_clampQ_lo (lo hi x : ℚ) : lo ≤ clampQ lo hi x := le_max_left _ _

theorem roundHalfEven_ge (q : ℚ) : q - 1/2 ≤ (roundHalfEven q : ℚ) := by
  unfold roundHalfEven
  dsimp only
  have h1 : (⌊q⌋ : ℚ) ≤ q := Int.floor_le q
  have h2 : q < (⌊q⌋ : ℚ) + 1 := Int.lt_floor_add_one q
  split_ifs with hf hg he <;> push_cast <;> linarith

theorem roundHalfEven_le (q : ℚ) : (roundHalfEven q : ℚ) ≤ q + 1/2 := by
  unfold roundHalfEven
  dsimp only
  have h1 : (⌊q⌋ : ℚ) ≤ q := Int.floor_le q
  have h2 : q < (⌊q⌋ : ℚ) + 1 := Int.lt_floor_add_one q
  split_ifs with hf hg he <;> push_cast <;> linarith

/-- `pyRound d` maps `[lo/10^d, hi/10^d]` into itself when `lo hi : ℤ`. -/
theorem pyRound_mem (d : ℕ) (lo hi : ℤ) (x : ℚ)
    (hlo : (lo : ℚ) / 10 ^ d ≤ x) (hhi : x ≤ (hi : ℚ) / 10 ^ d) :
    (lo : ℚ) / 10 ^ d ≤ pyRound d x ∧ pyRound d x ≤ (hi : ℚ) / 10 ^ d := by
  have hp : (0 : ℚ) < 10 ^ d := by positivity
  have hxlo : (lo : ℚ) ≤ x * 10 ^ d := by
    have := (div_le_iff₀ hp).mp hlo
    linarith
  have hxhi : x * 10 ^ d ≤ (hi : ℚ) := by
    have := (le_div_iff₀ hp).mp hhi
    linarith
  have h1 : (x * 10 ^ d) - 1/2 ≤ (roundHalfEven (x * 10 ^ d) : ℚ) :=
    roundHalfEven_ge _
  have h2 : (roundHalfEven (x * 10 ^ d) : ℚ) ≤ (x * 10 ^ d) + 1/2 :=
    roundHalfEven_le _
  have hglo : lo ≤ roundHalfEven (x * 10 ^ d) := by
    have hq : (lo : ℚ) - 1 < (roundHalfEven (x * 10 ^ d) : ℚ) := by linarith
    have : (lo : ℤ) - 1 < roundHalfEven (x * 10 ^ d) := by exact_mod_cast hq
    omega
  have hghi : roundHalfEven (x * 10 ^ d) ≤ hi := by
    have hq : (roundHalfEven (x * 10 ^ d) : ℚ) < (hi : ℚ) + 1 := by linarith
    have : roundHalfEven (x * 10 ^ d) < (hi : ℤ) + 1 := by exact_mod_cast hq
    omega
  constructor
  · unfold pyRound
    gcongr
  · unfold pyRound
    gcongr

theorem moodInRange_init (a e p an : ℚ) : moodInRange (MoodState.init a e p an) := by
  unfold moodInRange MoodState.init
  exact ⟨le_max_left _ _, max_le (by norm_num) (min_le_left _ _),
    le_max_left _ _, max_le (by norm_num) (min_le_left _ _),
    le_max_left _ _, max_le (by norm_num) (min_le_left _ _),
    le_max_left _ _, max_le (by norm_num) (min_le_left _ _)⟩

theorem moodInRange_update (m : MoodState) (s : StyleScores) (a : ℚ) :
    moodInRange (update_mood m s a) := by
  unfold update_mood
  exact moodInRange_init _ _ _ _

theorem foldl_update_mood_inRange (l : List (StyleScores × ℚ)) (m : MoodState)
    (hm : moodInRange m) :
    moodInRange (l.foldl (fun m u => update_mood m u.1 u.2) m) := by
  induction l generalizing m with
  | nil => exact hm
  | cons hd tl ih =>
    exact ih _ (by unfold update_mood; exact moodInRange_init _ _ _ _)

theorem pyRound_temp_bounds (T : ℚ) :
    0.2 ≤ pyRound 2 (max 0.2 (min 1.5 T)) ∧ pyRound 2 (max 0.2 (min 1.5 T)) ≤ 1.5 := by
  have e1 : ((20 : ℤ) : ℚ) / 10 ^ 2 = 0.2 := by norm_num
  have e2 : ((150 : ℤ) : ℚ) / 10 ^ 2 = 1.5 := by norm_num
  have h1 : (0.2 : ℚ) ≤ max 0.2 (min 1.5 T) := le_max_left _ _
  have h2 : max (0.2 : ℚ) (min 1.5 T) ≤ 1.5 := max_le (by norm_num) (min_le_left _ _)
  have := pyRound_mem 2 20 150 (max 0.2 (min 1.5 T)) (by rw [e1]; exact h1)
    (by rw [e2]; exact h2)
  rw [e1, e2] at this
  exact this

theorem pyRound_typo_bounds (R : ℚ) :
    0 ≤ pyRound 3 (max 0 (min 0.5 R)) ∧ pyRound 3 (max 0 (min 0.5 R)) ≤ 0.5 := by
  have e1 : ((0 : ℤ) : ℚ) / 10 ^ 3 = 0 := by norm_num
  have e2 : ((500 : ℤ) : ℚ) / 10 ^ 3 = 0.5 := by norm_num
  have h1 : (0 : ℚ) ≤ max 0 (min 0.5 R) := le_max_left _ _
  have h2 : max (0 : ℚ) (min 0.5 R) ≤ 0.5 := max_le (by norm_num) (min_le_left _ _)
  have := pyRound_mem 3 0 500 (max 0 (min 0.5 R)) (by rw [e1]; exact h1)
    (by rw [e2]; exact h2)
  rw [e1, e2] at this
  exact this

/-- C8: from a freshly constructed `MoodState`, any number of `update_mood`
applications with any style inputs and any alpha keeps `aggressiveness` in
`[-1, 1]` and `empathy`, `playfulness`, `analytical` in `[0, 1]`. -/
theorem mood_stays_clamped (updates : List (StyleScores × ℚ)) :
    moodInRange (updates.foldl (fun m u => update_mood m u.1 u.2) freshMoodState) :=
  foldl_update_mood_inRange updates freshMoodState (moodInRange_init 0 0 0 0)

/-- C9: for every mood state (clamped or not) and every base temperature and
base word count, `get_generation_params` returns `temperature ∈ [0.2, 1.5]`,
`max_words ∈ [8, 30]` and `typo_rate ∈ [0.0, 0.5]`. -/
theorem generation_params_bounded (m : MoodState) (bt : ℚ) (bw : ℤ) :
    0.2 ≤ (get_generation_params m bt bw).temperature ∧
    (get_generation_params m bt bw).temperature ≤ 1.5 ∧
    8 ≤ (get_generation_params m bt bw).max_words ∧
    (get_generation_params m bt bw).max_words ≤ 30 ∧
    0 ≤ (get_generation_params m bt bw).typo_rate ∧
    (get_generation_params m bt bw).typo_rate ≤ 0.5 := by
  unfold get_generation_params
  dsimp only
  exact ⟨(pyRound_temp_bounds _).1, (pyRound_temp_bounds _).2,
    le_max_left _ _, max_le (by norm_num) (min_le_left _ _),
    (pyRound_typo_bounds _).1, (pyRound_typo_bounds _).2⟩

/-- C2 (code defect): `generate_persona` is NOT deterministic in its seed:
`typo_rate` is drawn from the process-global `random` module
(`random.uniform(0.12, 0.2)`) rather than from the seeded `rng`, so two
calls with the identical seed stream but different global-RNG states return
different persona dictionaries. -/
theorem generate_persona_not_seed_deterministic :
    generate_persona (fun _ => 0) 0 ("en") ≠
      generate_persona (fun _ => 0) (1/2) ("en") := by
  intro h
  have h2 : pyRound 2 (0.12 + (0.2 - 0.12) * 0) =
      pyRound 2 (0.12 + (0.2 - 0.12) * (1/2)) :=
    congrArg PersonaCard.typo_rate h
  norm_num [pyRound, roundHalfEven] at h2

/-- C10: every generated persona has `reply_word_cap ∈ [9, 15]`,
`typo_rate ∈ [0.12, 0.2]`, and `emoji_rate = 0.03` exactly when the chosen
`emoji_pool` is non-empty (and `0.0` otherwise). -/
theorem persona_knobs_bounded (st : ℕ → ℕ) (g : ℚ) (hg0 : 0 ≤ g) (hg1 : g ≤ 1)
    (lang : String) :
    9 ≤ (generate_persona st g lang).reply_word_cap ∧
    (generate_persona st g lang).reply_word_cap ≤ 15 ∧
    0.12 ≤ (generate_persona st g lang).typo_rate ∧
    (generate_persona st g lang).typo_rate ≤ 0.2 ∧
    ((generate_persona st g lang).emoji_rate = 0.03 ↔
      (generate_persona st g lang).emoji_pool ≠ []) ∧
    ((generate_persona st g lang).emoji_pool = [] →
      (generate_persona st g lang).emoji_rate = 0) := by
  unfold generate_persona
  dsimp only
  refine ⟨?_, ?_, ?_, ?_, ?_, ?_⟩
  · unfold rngRandint
    omega
  · unfold rngRandint
    have := Nat.mod_lt (st 23) (y := 15 - 9 + 1) (by norm_num)
    omega
  · have e1 : ((12 : ℤ) : ℚ) / 10 ^ 2 = 0.12 := by norm_num
    have hx : (0.12 : ℚ) ≤ 0.12 + (0.2 - 0.12) * g := by nlinarith
    have := (pyRound_mem 2 12 20 (0.12 + (0.2 - 0.12) * g) (by rw [e1]; exact hx)
      (by norm_num; nlinarith)).1
    rw [e1] at this
    exact this
  · have e2 : ((20 : ℤ) : ℚ) / 10 ^ 2 = 0.2 := by norm_num
    have hx : (0.12 : ℚ) + (0.2 - 0.12) * g ≤ 0.2 := by nlinarith
    have := (pyRound_mem 2 12 20 (0.12 + (0.2 - 0.12) * g) (by norm_num; nlinarith)
      (by rw [e2]; exact hx)).2
    rw [e2] at this
    exact this
  · split_ifs with h
    · constructor
      · intro _ hnil
        rw [hnil] at h
        exact h rfl
      · intro _
        rfl
    · have hnil : rngChoice ([] : List String) st 18
          [[], [], [], [(("🙂"))], [(("😅"))], [(("👍"))], []] = [] := by
        have hl := not_not.mp h
        exact List.length_eq_zero.mp hl
      constructor
      · intro h3
        exact absurd h3 (by norm_num)
      · intro hne
        exact absurd hnil hne
  · intro hnil
    split_ifs with h
    · rw [hnil] at h
      exact absurd rfl h
    · norm_num

theorem persona_knobs_bounded_witness :
    (0 : ℚ) ≤ 0 ∧ (0 : ℚ) ≤ 1 ∧
    9 ≤ (generate_persona (fun _ => 0) 0 ("en")).reply_word_cap ∧
    (generate_persona (fun _ => 0) 0 ("en")).reply_word_cap ≤ 15 ∧
    0.12 ≤ (generate_persona (fun _ => 0) 0 ("en")).typo_rate ∧
    (generate_persona (fun _ => 0) 0 ("en")).typo_rate ≤ 0.2 ∧
    ((generate_persona (fun _ => 0) 0 ("en")).emoji_rate = 0.03 ↔
      (generate_persona (fun _ => 0) 0 ("en")).emoji_pool ≠ []) ∧
    ((generate_persona (fun _ => 0) 0 ("en")).emoji_pool = [] →
      (generate_persona (fun _ => 0) 0 ("en")).emoji_rate = 0) :=
  ⟨by norm_num, by norm_num,
    persona_knobs_bounded (fun _ => 0) 0 (by norm_num) (by norm_num) ("en")⟩

/-- C1: the reveal tuple verifies against the commit hash of the session,
both when `GameState.__init__` mints its own commitment (`preset = None`)
and when a preset commitment minted by matchmaking's `commit_selection`
(the only producer of presets: `resolve_match_status`,
`try_pair_with_oldest`, `cancel_match` and the websocket fallbacks) is
installed — for any opponent type, nonce and timestamp. -/
theorem commit_reveal_verifies (sha : String → String) (ot nonce : String)
    (now rls cts : ℤ) (pf : String → PersonaCard) :
    commitVerifies sha (GameState.init sha ot now rls nonce cts none pf) ∧
    ∀ (pot pn : String) (pts : ℤ),
      commitVerifies sha (GameState.init sha ot now rls nonce cts
        (some { opponent_type := pot
                hash := (commit_selection sha pot pn pts).1
                nonce := pn
                ts := pts }) pf) := by
  constructor
  · rfl
  · intro pot pn pts
    rfl

/-- C7: in an A-vs-bot session (commitment opponent type `"AI"`, as in every
`run_game_ai` call site), a guess frame is upper-cased, scored +100 when it
matches the commitment's opponent type and −200 otherwise, and the emitted
`end` frame carries reason `"guess"`, the correctness flag, `score_delta`
equal to A's accumulated score, and the reveal; the session is marked
ended. -/
theorem guess_scoring (game : GameState) (gi : Option String)
    (h : game.opponent_type = ("AI")) :
    (run_game_ai_guess game gi).1.score_a = game.score_a +
      (if pyUpper (gi.getD ("")) = game.opponent_type then SCORE_CORRECT
       else SCORE_WRONG) ∧
    (run_game_ai_guess game gi).1.ended = true ∧
    (run_game_ai_guess game gi).2.reason = ("guess") ∧
    ((run_game_ai_guess game gi).2.correct = true ↔
      pyUpper (gi.getD ("")) = game.opponent_type) ∧
    (run_game_ai_guess game gi).2.score_delta =
      (run_game_ai_guess game gi).1.score_a ∧
    (run_game_ai_guess game gi).2.reveal = game.reveal := by
  unfold run_game_ai_guess
  rw [h]
  dsimp only
  refine ⟨?_, rfl, rfl, ?_, rfl, rfl⟩
  · by_cases hg : pyUpper (gi.getD ("")) = ("AI")
    · rw [if_pos hg, if_pos (beq_iff_eq.mpr hg)]
    · rw [if_neg hg, if_neg (by simp [hg])]
  · exact beq_iff_eq

theorem guess_scoring_witness :
    (GameState.init (fun s => s) ("AI") 0 300 ("n0") 5 none
        (fun _ => generate_persona (fun _ => 0) 0 ("en"))).opponent_type =
      ("AI") ∧
    ((run_game_ai_guess (GameState.init (fun s => s) ("AI") 0 300 ("n0") 5 none
        (fun _ => generate_persona (fun _ => 0) 0 ("en"))) (some ("ai"))).1.score_a =
      (GameState.init (fun s => s) ("AI") 0 300 ("n0") 5 none
        (fun _ => generate_persona (fun _ => 0) 0 ("en"))).score_a +
      (if pyUpper ((some ("ai")).getD ("")) =
          (GameState.init (fun s => s) ("AI") 0 300 ("n0") 5 none
            (fun _ => generate_persona (fun _ => 0) 0 ("en"))).opponent_type
       then SCORE_CORRECT else SCORE_WRONG) ∧
    (run_game_ai_guess (GameState.init (fun s => s) ("AI") 0 300 ("n0") 5 none
        (fun _ => generate_persona (fun _ => 0) 0 ("en"))) (some ("ai"))).1.ended = true ∧
    (run_game_ai_guess (GameState.init (fun s => s) ("AI") 0 300 ("n0") 5 none
        (fun _ => generate_persona (fun _ => 0) 0 ("en"))) (some ("ai"))).2.reason = ("guess") ∧
    ((run_game_ai_guess (GameState.init (fun s => s) ("AI") 0 300 ("n0") 5 none
        (fun _ => generate_persona (fun _ => 0) 0 ("en"))) (some ("ai"))).2.correct = true ↔
      pyUpper ((some ("ai")).getD ("")) =
        (GameState.init (fun s => s) ("AI") 0 300 ("n0") 5 none
          (fun _ => generate_persona (fun _ => 0) 0 ("en"))).opponent_type) ∧
    (run_game_ai_guess (GameState.init (fun s => s) ("AI") 0 300 ("n0") 5 none
        (fun _ => generate_persona (fun _ => 0) 0 ("en"))) (some ("ai"))).2.score_delta =
      (run_game_ai_guess (GameState.init (fun s => s) ("AI") 0 300 ("n0") 5 none
        (fun _ => generate_persona (fun _ => 0) 0 ("en"))) (some ("ai"))).1.score_a ∧
    (run_game_ai_guess (GameState.init (fun s => s) ("AI") 0 300 ("n0") 5 none
        (fun _ => generate_persona (fun _ => 0) 0 ("en"))) (some ("ai"))).2.reveal =
      (GameState.init (fun s => s) ("AI") 0 300 ("n0") 5 none
        (fun _ => generate_persona (fun _ => 0) 0 ("en"))).reveal) :=
  ⟨rfl, guess_scoring _ (some ("ai")) rfl⟩

/-- C6: resolving a pending request whose window has expired
(`expires_at ≤ now`, i.e. `time_left = 0`) always sets the status to
`ready_ai` and mints a fresh AI commitment (opponent type `"AI"`, the fresh
nonce/timestamp, hash = `commit_selection("AI")`), regardless of
`reserved_ai`; the returned result has status `"ready_ai"`, `time_left`
`0.0` and the match websocket URL — no error is surfaced. -/
theorem expired_pending_resolves_to_ai (sha : String → String) (now : ℚ)
    (n : String) (ts : ℤ) (req : PendingReq)
    (hs : req.status = ("pending")) (he : req.expires_at ≤ now) :
    (resolve_match_status sha now n ts req).1.status = ("ready_ai") ∧
    (resolve_match_status sha now n ts req).1.opponent_type = some ("AI") ∧
    (resolve_match_status sha now n ts req).1.commit_hash =
      some ((commit_selection sha ("AI") n ts).1) ∧
    (resolve_match_status sha now n ts req).1.commit_nonce = some n ∧
    (resolve_match_status sha now n ts req).1.commit_ts = some ts ∧
    (resolve_match_status sha now n ts req).1.reserved_ai = req.reserved_ai ∧
    (resolve_match_status sha now n ts req).2.status = ("ready_ai") ∧
    (resolve_match_status sha now n ts req).2.time_left = some 0 ∧
    (resolve_match_status sha now n ts req).2.commit_hash =
      some ((commit_selection sha ("AI") n ts).1) ∧
    (resolve_match_status sha now n ts req).2.ws_url =
      some (("/ws/match?ticket=") ++ toString req.ticket) := by
  have htl : time_left req now = 0 := by
    unfold time_left
    exact max_eq_left (by linarith)
  unfold resolve_match_status
  rw [hs]
  rw [if_neg (by decide), if_neg (by decide), if_neg (by decide), htl,
    if_neg (by norm_num)]
  by_cases hr : req.reserved_ai
  · rw [if_pos hr]
    exact ⟨rfl, rfl, rfl, rfl, rfl, rfl, rfl, rfl, rfl, rfl⟩
  · rw [if_neg hr]
    exact ⟨rfl, rfl, rfl, rfl, rfl, rfl, rfl, rfl, rfl, rfl⟩

theorem expired_pending_resolves_to_ai_witness :
    (PendingReq.init 5 none 0 10).status = ("pending") ∧
    (PendingReq.init 5 none 0 10).expires_at ≤ 11 ∧
    ((resolve_match_status (fun s => s) 11 ("nz") 9 (PendingReq.init 5 none 0 10)).1.status =
        ("ready_ai") ∧
    (resolve_match_status (fun s => s) 11 ("nz") 9 (PendingReq.init 5 none 0 10)).1.opponent_type =
        some ("AI") ∧
    (resolve_match_status (fun s => s) 11 ("nz") 9 (PendingReq.init 5 none 0 10)).1.commit_hash =
        some ((commit_selection (fun s => s) ("AI") ("nz") 9).1) ∧
    (resolve_match_status (fun s => s) 11 ("nz") 9 (PendingReq.init 5 none 0 10)).1.commit_nonce =
        some ("nz") ∧
    (resolve_match_status (fun s => s) 11 ("nz") 9 (PendingReq.init 5 none 0 10)).1.commit_ts =
        some 9 ∧
    (resolve_match_status (fun s => s) 11 ("nz") 9 (PendingReq.init 5 none 0 10)).1.reserved_ai =
        (PendingReq.init 5 none 0 10).reserved_ai ∧
    (resolve_match_status (fun s => s) 11 ("nz") 9 (PendingReq.init 5 none 0 10)).2.status =
        ("ready_ai") ∧
    (resolve_match_status (fun s => s) 11 ("nz") 9 (PendingReq.init 5 none 0 10)).2.time_left =
        some 0 ∧
    (resolve_match_status (fun s => s) 11 ("nz") 9 (PendingReq.init 5 none 0 10)).2.commit_hash =
        some ((commit_selection (fun s => s) ("AI") ("nz") 9).1) ∧
    (resolve_match_status (fun s => s) 11 ("nz") 9 (PendingReq.init 5 none 0 10)).2.ws_url =
        some (("/ws/match?ticket=") ++ toString (PendingReq.init 5 none 0 10).ticket)) :=
  ⟨rfl, by norm_num [PendingReq.init],
    expired_pending_resolves_to_ai (fun s => s) 11 ("nz") 9 (PendingReq.init 5 none 0 10)
      rfl (by norm_num [PendingReq.init])⟩

theorem pyRstrip_length_le (s : List Char) : (pyRstrip s).length ≤ s.length := by
  unfold pyRstrip
  rw [List.length_reverse]
  exact le_trans (List.IsSuffix.sublist (List.dropWhile_suffix _)).length_le
    (le_of_eq (List.length_reverse s))

theorem swap_adjacent_length (r : RandS) (i : ℕ) (s : List Char) :
    (swap_adjacent r i s).1.length ≤ s.length := by
  unfold swap_adjacent
  dsimp only
  split_ifs with h1 h2
  · exact le_refl _
  · have hm : r.ns i % (s.length - 2) < s.length - 2 :=
      Nat.mod_lt _ (by omega)
    have hj : 1 + r.ns i % (s.length - 2) ≤ s.length := by omega
    dsimp only
    rw [List.length_append, List.length_append, List.length_take,
      Nat.min_eq_left hj, List.length_drop]
    simp only [List.length_cons, List.length_nil]
    omega
  · exact le_refl _

theorem neighbor_replace_length (r : RandS) (i : ℕ) (s : List Char) :
    (neighbor_replace r i s).1.length ≤ s.length := by
  unfold neighbor_replace
  dsimp only
  split_ifs with h1 h2 h3
  · exact le_refl _
  · exact Nat.le_of_eq (List.length_set _ _ _)
  · exact Nat.le_of_eq (List.length_set _ _ _)
  · exact le_refl _

theorem drop_random_char_length (r : RandS) (i : ℕ) (s : List Char) :
    (drop_random_char r i s).1.length ≤ s.length := by
  unfold drop_random_char
  dsimp only
  split_ifs with h1
  · exact le_refl _
  · exact (List.eraseIdx_sublist _ _).length_le

theorem typosLoop_length (r : RandS) (n : ℕ) :
    ∀ (i : ℕ) (s : List Char), (typosLoop r i s n).1.length ≤ s.length := by
  induction n with
  | zero => intro i s; exact le_refl _
  | succ n ih =>
    intro i s
    unfold typosLoop
    dsimp only
    split_ifs with h1 h2
    · exact le_trans (ih _ _) (swap_adjacent_length _ _ _)
    · exact le_trans (ih _ _) (neighbor_replace_length _ _ _)
    · exact le_trans (ih _ _) (drop_random_char_length _ _ _)

theorem humanize_typos_length (r : RandS) (i : ℕ) (text : List Char)
    (rate : ℚ) (mt : ℕ) :
    (humanize_typos r i text rate mt).1.length ≤ text.length := by
  unfold humanize_typos
  dsimp only
  split_ifs with h1 h2 h3
  · exact le_refl _
  · exact le_refl _
  · obtain ⟨-, hne, -⟩ := h3
    have hl := typosLoop_length r (1 + r.ns (i + 1) % max 1 mt) (i + 2) text
    simp only [List.length_cons, List.length_drop]
    omega
  · exact typosLoop_length r _ _ _

theorem humanize_prepare_le_180 (text : List Char) (mw : ℤ)
    (p : Option HPersona) : (humanize_prepare text mw p).length ≤ 180 := by
  unfold humanize_prepare
  dsimp only
  split_ifs with h
  · refine le_trans (pyRstrip_length_le _) ?_
    rw [List.length_take]
    exact min_le_left _ _
  · omega

theorem humanize_decorate_no_decorations_length (r : RandS) (i : ℕ)
    (s : List Char) (p : HPersona) (h1 : p.emoji_pool = [])
    (h2 : pyStrip p.laughter = []) (h3 : p.filler_words = []) :
    (humanize_decorate r i s p).length ≤ s.length := by
  unfold humanize_decorate
  dsimp only
  rw [h1, h2, h3]
  simp only [List.length_nil, ne_eq, eq_self_iff_true, not_true_eq_false,
    false_and, if_false, ite_self]
  split_ifs with hC1 hC2 hC2b
  · obtain ⟨-, hne, -⟩ := hC2
    simp only [List.length_cons, List.length_drop, List.length_dropLast]
      at hne ⊢
    omega
  · simp only [List.length_dropLast]
    omega
  · obtain ⟨-, hne, -⟩ := hC2b
    simp only [List.length_cons, List.length_drop] at hne ⊢
    omega
  · exact le_refl _

/-- C3 (amended): the 180-character hard cap holds for the text produced
before persona decorations; hence for every input, every random outcome and
every persona carrying no decorations (empty `emoji_pool`, blank `laughter`,
empty `filler_words` — in particular `persona = None`), the reply is at most
180 characters.  (With decorations the cap can be exceeded; see the
counterexample.) -/
theorem humanize_reply_len_le_180 (r : RandS) (i : ℕ) (text : List Char)
    (mw : ℤ) (tr : ℚ) (mt : ℕ) (p : Option HPersona)
    (hp : ∀ q, p = some q → q.emoji_pool = [] ∧ pyStrip q.laughter = [] ∧
      q.filler_words = []) :
    (humanize_reply r i text mw tr mt p).length ≤ 180 := by
  unfold humanize_reply
  dsimp only
  cases p with
  | none =>
    exact le_trans (humanize_typos_length _ _ _ _ _)
      (humanize_prepare_le_180 _ _ _)
  | some q =>
    obtain ⟨h1, h2, h3⟩ := hp q rfl
    exact le_trans (humanize_decorate_no_decorations_length _ _ _ _ h1 h2 h3)
      (le_trans (humanize_typos_length _ _ _ _ _)
        (humanize_prepare_le_180 _ _ _))

theorem humanize_reply_len_le_180_witness :
    (∀ q, (none : Option HPersona) = some q → q.emoji_pool = [] ∧
      pyStrip q.laughter = [] ∧ q.filler_words = []) ∧
    (humanize_reply { fs := fun _ => 1, ns := fun _ => 0 } 0
      (['h', 'i', '!', '!', ' ', 'o', 'k']) 18 0 2 none).length ≤ 180 :=
  ⟨(fun _ h => nomatch h),
    (humanize_reply_len_le_180 _ 0 _ 18 0 2 none (fun _ h => nomatch h))⟩

/-- Concrete random source for the humanizer counterexamples: every float
draw is 1 (skip typos, skip the sub-0.15/0.1/0.05 branches, but pass the
`emoji_rate * 2 = 4` check), every integer draw is 0. -/
def cexRandS : RandS := { fs := fun _ => 1, ns := fun _ => 0 }

/-- 26 ten-character words (285 characters), within the 26-word cap. -/
def cexText : List Char :=
  List.intercalate ([' ']) (List.replicate 26 (List.replicate 10 'a'))

/-- A persona with an emoji pool — the kind `generate_persona` produces. -/
def cexHPersona : HPersona :=
  { reply_word_cap := some 18
    typo_rate := some 0
    emoji_pool := [[(Char.ofNat 128578)]]
    emoji_rate := some 2
    laughter := []
    filler_words := [] }

/-- What `humanize_prepare` yields on `cexText`: the 180-character
truncation. -/
def cexPrepared : List Char := cexText.take 180

set_option maxRecDepth 40000

/-- C3 counterexample: with an emoji-bearing persona the reply exceeds 180
characters (182 here): the hard cap is applied before the decoration
appends. -/
theorem humanize_reply_exceeds_180 :
    ¬ ((humanize_reply cexRandS 0 cexText 18 0 2 (some cexHPersona)).length ≤ 180) := by
  have h1 : humanize_prepare cexText 18 (some cexHPersona) = cexPrepared := by
    decide
  have h2 : humanize_typos cexRandS 0 cexPrepared (cexHPersona.typo_rate.getD 0) 2 =
      (cexPrepared, 1) := by
    unfold humanize_typos
    rw [if_neg (by decide), if_pos (by decide)]
  have h3 : humanize_decorate cexRandS 1 cexPrepared cexHPersona =
      cexPrepared ++ [' ', Char.ofNat 128578] := by
    unfold humanize_decorate
    dsimp only
    rw [if_pos (show cexHPersona.emoji_pool.length ≠ 0 by decide)]
    rw [if_pos (show cexRandS.fs 1 < cexHPersona.emoji_rate.getD 0 * 2 by
      norm_num [cexRandS, cexHPersona])]
    dsimp only
    rw [if_neg (show ¬ (cexRandS.fs 3 < (0.15 : ℚ)) by norm_num [cexRandS])]
    dsimp only
    split_ifs with hA hB hC
    · exfalso
      obtain ⟨hh, -⟩ := hA
      norm_num [cexRandS] at hh
    · exfalso
      obtain ⟨hh, -⟩ := hA
      norm_num [cexRandS] at hh
    · exfalso
      obtain ⟨hh, -⟩ := hC
      norm_num [cexRandS] at hh
    · decide
  unfold humanize_reply
  dsimp only
  rw [h1, h2]
  dsimp only
  rw [h3]
  decide

theorem limit_words_nil (m : ℤ) : limit_words [] m = [] := by
  unfold limit_words
  dsimp only
  split_ifs with h
  · rfl
  · rw [show pySplit (pyStrip ([] : List Char)) = [] from rfl]
    unfold pySliceTo
    split_ifs <;> simp [List.intercalate]

theorem humanize_prepare_nil (mw : ℤ) (p : Option HPersona) :
    humanize_prepare [] mw p = [] := by
  unfold humanize_prepare
  dsimp only
  rw [show collapsePunct (pyStrip []) = [] from rfl,
    show replaceNewlines [] = [] from rfl, limit_words_nil]
  rfl

theorem humanize_typos_nil (r : RandS) (i : ℕ) (rate : ℚ) (mt : ℕ) :
    humanize_typos r i [] rate mt = ([], i) := by
  unfold humanize_typos
  rw [if_pos (show (([] : List Char)).length = 0 from rfl)]

theorem humanize_decorate_nil (r : RandS) (i : ℕ) (q : HPersona)
    (h1 : q.emoji_pool = []) (h2 : pyStrip q.laughter = [])
    (h3 : q.filler_words = []) : humanize_decorate r i [] q = [] := by
  unfold humanize_decorate
  dsimp only
  rw [h1, h2, h3]
  simp

/-- C4 (amended): empty input yields empty output for `persona = None` and
for every persona carrying no decorations (empty `emoji_pool`, blank
`laughter`, empty `filler_words`), over every random outcome.  (A persona
with decorations can turn empty input into a bare emoji/laughter token; see
the counterexample.) -/
theorem humanize_reply_empty_input (r : RandS) (i : ℕ) (mw : ℤ) (tr : ℚ)
    (mt : ℕ) (p : Option HPersona)
    (hp : ∀ q, p = some q → q.emoji_pool = [] ∧ pyStrip q.laughter = [] ∧
      q.filler_words = []) :
    humanize_reply r i [] mw tr mt p = [] := by
  unfold humanize_reply
  dsimp only
  rw [humanize_prepare_nil]
  cases p with
  | none =>
    rw [humanize_typos_nil]
  | some q =>
    obtain ⟨h1, h2, h3⟩ := hp q rfl
    rw [humanize_typos_nil]
    exact humanize_decorate_nil r i q h1 h2 h3

theorem humanize_reply_empty_input_witness :
    (∀ q, (none : Option HPersona) = some q → q.emoji_pool = [] ∧
      pyStrip q.laughter = [] ∧ q.filler_words = []) ∧
    humanize_reply { fs := fun _ => 1, ns := fun _ => 0 } 0 [] 18 0 2 none = [] :=
  ⟨(fun _ h => nomatch h),
    (humanize_reply_empty_input _ 0 18 0 2 none (fun _ h => nomatch h))⟩

/-- C4 counterexample: with an emoji-bearing persona, empty input can come
back as a bare emoji — not the empty string. -/
theorem humanize_reply_empty_input_cex :
    humanize_reply cexRandS 0 [] 18 0 2 (some cexHPersona) ≠ [] := by
  have h2 : humanize_typos cexRandS 0 [] (cexHPersona.typo_rate.getD 0) 2 =
      ([], 0) := humanize_typos_nil _ _ _ _
  have h3 : humanize_decorate cexRandS 0 [] cexHPersona = [Char.ofNat 128578] := by
    unfold humanize_decorate
    dsimp only
    rw [if_pos (show cexHPersona.emoji_pool.length ≠ 0 by decide)]
    rw [if_pos (show cexRandS.fs 0 < cexHPersona.emoji_rate.getD 0 * 2 by
      norm_num [cexRandS, cexHPersona])]
    dsimp only
    rw [if_neg (show ¬ (cexRandS.fs 2 < (0.15 : ℚ)) by norm_num [cexRandS])]
    dsimp only
    split_ifs with hA hB hC
    · exfalso
      obtain ⟨hh, -⟩ := hA
      norm_num [cexRandS] at hh
    · exfalso
      obtain ⟨hh, -⟩ := hA
      norm_num [cexRandS] at hh
    · exfalso
      obtain ⟨hh, -⟩ := hC
      norm_num [cexRandS] at hh
    · decide
  unfold humanize_reply
  dsimp only
  rw [humanize_prepare_nil, h2]
  dsimp only
  rw [h3]
  decide

theorem lookup_cons_ite (k0 : ℕ) (v0 : PendingReq) (tl : List (ℕ × PendingReq))
    (t : ℕ) :
    ((k0, v0) :: tl).lookup t = if t = k0 then some v0 else tl.lookup t := by
  rw [List.lookup_cons]
  by_cases h : t = k0
  · rw [if_pos h, show (t == k0) = true from beq_iff_eq.mpr h]
  · rw [if_neg h, show (t == k0) = false from beq_eq_false_iff_ne.mpr h]

theorem lookup_mapUpdate (l : List (ℕ × PendingReq)) (u t : ℕ)
    (f : PendingReq → PendingReq) :
    (l.map (fun p => if p.1 = u then (p.1, f p.2) else p)).lookup t =
      if t = u then (l.lookup t).map f else l.lookup t := by
  induction l with
  | nil => by_cases h : t = u <;> simp [List.lookup, h]
  | cons hd tl ih =>
    obtain ⟨k0, v0⟩ := hd
    simp only [List.map_cons]
    by_cases h1 : k0 = u
    · rw [if_pos h1]
      rw [lookup_cons_ite, lookup_cons_ite]
      by_cases h2 : t = k0
      · rw [if_pos h2, if_pos h2, if_pos (h1 ▸ h2)]
        rfl
      · rw [if_neg h2, if_neg h2, ih]
    · rw [if_neg h1]
      rw [lookup_cons_ite, lookup_cons_ite]
      by_cases h2 : t = k0
      · rw [if_pos h2, if_pos h2, if_neg (by omega : ¬ t = u)]
      · rw [if_neg h2, if_neg h2, ih]

theorem lookupReq_updateReq (s : MMState) (u : ℕ) (f : PendingReq → PendingReq)
    (t : ℕ) :
    lookupReq (updateReq s u f) t =
      if t = u then (lookupReq s t).map f else lookupReq s t := by
  unfold lookupReq updateReq
  exact lookup_mapUpdate _ _ _ _

theorem not_mem_keys_of_lookup_eq_none (l : List (ℕ × PendingReq)) (k : ℕ)
    (h : l.lookup k = none) : k ∉ l.map Prod.fst := by
  induction l with
  | nil => simp
  | cons hd tl ih =>
    obtain ⟨k0, v0⟩ := hd
    rw [lookup_cons_ite] at h
    by_cases h1 : k = k0
    · rw [if_pos h1] at h
      exact absurd h (by simp)
    · rw [if_neg h1] at h
      simp only [List.map_cons, List.mem_cons]
      rintro (h2 | h2)
      · exact h1 h2
      · exact ih h h2

theorem lookup_dictInsert (l : List (ℕ × PendingReq)) (k : ℕ) (v : PendingReq)
    (hk : l.lookup k = none) (t : ℕ) :
    (dictInsert l k v).lookup t = if t = k then some v else l.lookup t := by
  unfold dictInsert
  rw [hk]
  simp only [Option.isSome_none, Bool.false_eq_true, if_false]
  induction l with
  | nil =>
    rw [List.nil_append, lookup_cons_ite]
  | cons hd tl ih =>
    obtain ⟨k0, v0⟩ := hd
    rw [lookup_cons_ite] at hk
    by_cases h1 : k = k0
    · rw [if_pos h1] at hk
      exact absurd hk (by simp)
    · rw [if_neg h1] at hk
      rw [List.cons_append, lookup_cons_ite, lookup_cons_ite]
      by_cases h2 : t = k0
      · rw [if_pos h2, if_pos h2, if_neg (by omega : ¬ t = k)]
      · rw [if_neg h2, if_neg h2, ih hk]

theorem lookup_mem (l : List (ℕ × PendingReq)) (k : ℕ) (v : PendingReq)
    (h : l.lookup k = some v) : (k, v) ∈ l := by
  induction l with
  | nil => simp [List.lookup] at h
  | cons hd tl ih =>
    obtain ⟨k0, v0⟩ := hd
    rw [lookup_cons_ite] at h
    by_cases h1 : k = k0
    · rw [if_pos h1] at h
      simp only [Option.some.injEq] at h
      simp [h1, h]
    · rw [if_neg h1] at h
      exact List.mem_cons_of_mem _ (ih h)

theorem mem_lookup_of_nodup (l : List (ℕ × PendingReq)) (k : ℕ)
    (v : PendingReq) (hnd : (l.map Prod.fst).Nodup) (h : (k, v) ∈ l) :
    l.lookup k = some v := by
  induction l with
  | nil => simp at h
  | cons hd tl ih =>
    obtain ⟨k0, v0⟩ := hd
    simp only [List.map_cons, List.nodup_cons] at hnd
    rw [lookup_cons_ite]
    rcases List.mem_cons.mp h with h1 | h1
    · cases h1
      rw [if_pos rfl]
    · have hk : ¬ k = k0 := by
        intro he
        exact hnd.1 (he ▸ List.mem_map_of_mem Prod.fst h1)
      rw [if_neg hk]
      exact ih hnd.2 h1

theorem keys_updateReq (s : MMState) (u : ℕ) (f : PendingReq → PendingReq) :
    (updateReq s u f).pending_requests.map Prod.fst =
      s.pending_requests.map Prod.fst := by
  unfold updateReq
  dsimp only
  rw [List.map_map]
  exact List.map_congr_left (fun x _ => by by_cases h : x.1 = u <;> simp [h])

theorem statusWF_mem (s : MMState) (h : statusWF s = true) (t : ℕ)
    (r : PendingReq) (hl : lookupReq s t = some r) :
    r.status = ("pending") ∨ r.status = ("ready_ai") ∨
    r.status = ("ready_h2h") ∨ r.status = ("canceled") := by
  unfold statusWF at h
  rw [List.all_eq_true] at h
  have := h _ (lookup_mem _ _ _ hl)
  simp only [Bool.or_eq_true, beq_iff_eq] at this
  tauto

theorem statusWF_updateReq (s : MMState) (u : ℕ) (f : PendingReq → PendingReq)
    (h : statusWF s = true)
    (hf : ∀ r, (f r).status = r.status ∨ (f r).status = ("pending") ∨
      (f r).status = ("ready_ai") ∨ (f r).status = ("ready_h2h") ∨
      (f r).status = ("canceled")) :
    statusWF (updateReq s u f) = true := by
  unfold statusWF updateReq at *
  dsimp only
  rw [List.all_eq_true] at h ⊢
  intro p hp
  rw [List.mem_map] at hp
  obtain ⟨q, hq, rfl⟩ := hp
  by_cases hc : q.1 = u
  · rw [if_pos hc]
    dsimp only
    rcases hf q.2 with he | he | he | he | he <;> rw [he]
    · exact h q hq
    all_goals decide
  · rw [if_neg hc]
    exact h q hq

theorem mmWF_updateReq (s : MMState) (u : ℕ) (f : PendingReq → PendingReq)
    (h : mmWF s)
    (hf : ∀ r, (f r).status = r.status ∨ (f r).status = ("pending") ∨
      (f r).status = ("ready_ai") ∨ (f r).status = ("ready_h2h") ∨
      (f r).status = ("canceled")) :
    mmWF (updateReq s u f) := by
  refine ⟨?_, statusWF_updateReq s u f h.2 hf⟩
  rw [keys_updateReq]
  exact h.1

theorem lookupReq_set_pairs (s : MMState) (x : List (String × PairSlot))
    (t : ℕ) : lookupReq { s with pairs := x } t = lookupReq s t := rfl

theorem mmWF_set_pairs (s : MMState) (x : List (String × PairSlot))
    (h : mmWF s) : mmWF { s with pairs := x } := h

theorem findCandidate_aux (cur : ℕ) (now : ℚ) :
    ∀ (l : List (ℕ × PendingReq)) (acc : Option (ℕ × ℚ)) (c : ℕ × ℚ),
      l.foldl
        (fun best p =>
          if p.1 = cur ∨ p.2.status ≠ ("pending") ∨ p.2.reserved_ai = true ∨
              p.2.expires_at ≤ now then best
          else
            match best with
            | none => some (p.1, p.2.created_at)
            | some b =>
              if p.2.created_at < b.2 then some (p.1, p.2.created_at) else b)
        acc = some c →
      acc = some c ∨ ∃ r, (c.1, r) ∈ l ∧ c.1 ≠ cur ∧ r.status = ("pending") ∧
        r.reserved_ai = false ∧ now < r.expires_at := by
  intro l
  induction l with
  | nil => intro acc c h; exact Or.inl h
  | cons hd tl ih =>
    intro acc c h
    rw [List.foldl_cons] at h
    rcases ih _ c h with h1 | ⟨r, hm, hne, hs, hr, he⟩
    · by_cases hg : hd.1 = cur ∨ hd.2.status ≠ ("pending") ∨
          hd.2.reserved_ai = true ∨ hd.2.expires_at ≤ now
      · rw [if_pos hg] at h1
        exact Or.inl h1
      · push_neg at hg
        obtain ⟨hg1, hg2, hg3, hg4⟩ := hg
        rw [if_neg (by push_neg; exact ⟨hg1, hg2, hg3, hg4⟩)] at h1
        cases acc with
        | none =>
          simp only [Option.some.injEq] at h1
          refine Or.inr ⟨hd.2, ?_, ?_, ?_, ?_, ?_⟩
          · rw [← h1]
            exact List.mem_cons_self _ _
          · rw [← h1]; exact hg1
          · exact hg2
          · simpa using hg3
          · exact hg4
        | some b =>
          dsimp only at h1
          by_cases hlt : hd.2.created_at < b.2
          · rw [if_pos hlt] at h1
            simp only [Option.some.injEq] at h1
            refine Or.inr ⟨hd.2, ?_, ?_, hg2, by simpa using hg3, hg4⟩
            · rw [← h1]
              exact List.mem_cons_self _ _
            · rw [← h1]; exact hg1
          · rw [if_neg hlt] at h1
            exact Or.inl h1
    · exact Or.inr ⟨r, List.mem_cons_of_mem _ hm, hne, hs, hr, he⟩

theorem findCandidate_spec (reqs : List (ℕ × PendingReq)) (cur : ℕ) (now : ℚ)
    (c : ℕ × ℚ) (h : findCandidate reqs cur now = some c) :
    c.1 ≠ cur ∧ ∃ r, (c.1, r) ∈ reqs ∧ r.status = ("pending") ∧
      r.reserved_ai = false ∧ now < r.expires_at := by
  unfold findCandidate at h
  rcases findCandidate_aux cur now reqs none c h with h1 | ⟨r, hm, hne, hs, hr, he⟩
  · exact absurd h1 (by simp)
  · exact ⟨hne, r, hm, hs, hr, he⟩

theorem resolve_result (sha : String → String) (now : ℚ) (n : String) (ts : ℤ)
    (req : PendingReq) :
    (resolve_match_status sha now n ts req).1 = req ∨
    (req.status ≠ ("ready_h2h") ∧ req.status ≠ ("ready_ai") ∧
      req.status ≠ ("canceled") ∧
      (resolve_match_status sha now n ts req).1.status = ("ready_ai") ∧
      (resolve_match_status sha now n ts req).1.reserved_ai = req.reserved_ai) := by
  unfold resolve_match_status
  dsimp only
  split_ifs with h1 h2 h3 h4 h5
  · exact Or.inl rfl
  · exact Or.inl rfl
  · exact Or.inl rfl
  · exact Or.inl rfl
  · exact Or.inr ⟨h1, h2, h3, rfl, rfl⟩
  · exact Or.inr ⟨h1, h2, h3, rfl, rfl⟩

theorem match_status_step (sha : String → String) (ticket : ℕ) (now : ℚ)
    (n : String) (ts : ℤ) (s : MMState) (hwf : mmWF s) :
    mmWF (match_status sha ticket now n ts s).1 ∧
    ∀ t r, lookupReq s t = some r →
      ∃ r', lookupReq (match_status sha ticket now n ts s).1 t = some r' ∧
        statusStep r.status r'.status ∧
        (r.status ≠ ("pending") → r'.reserved_ai = r.reserved_ai) := by
  unfold match_status
  cases hl : lookupReq s ticket with
  | none =>
    dsimp only
    exact ⟨hwf, fun t r h1 => ⟨r, h1, Or.inl rfl, fun _ => rfl⟩⟩
  | some req =>
    dsimp only
    constructor
    · apply mmWF_updateReq s ticket _ hwf
      intro r0
      rcases resolve_result sha now n ts req with he | ⟨-, -, -, hs, -⟩
      · rw [he]
        rcases statusWF_mem s hwf.2 ticket req hl with h | h | h | h <;>
          exact Or.inr (by tauto)
      · exact Or.inr (by tauto)
    · intro t r h1
      rw [lookupReq_updateReq]
      by_cases ht : t = ticket
      · subst ht
        rw [if_pos rfl, h1]
        have hreq : r = req := by
          rw [h1] at hl
          exact (Option.some.injEq _ _ ▸ hl)
        subst hreq
        refine ⟨(resolve_match_status sha now n ts r).1, rfl, ?_⟩
        rcases resolve_result sha now n ts r with he | ⟨hn1, hn2, hn3, hs, hres⟩
        · rw [he]
          exact ⟨Or.inl rfl, fun _ => rfl⟩
        · have hpend : r.status = ("pending") := by
            rcases statusWF_mem s hwf.2 _ r hl with h | h | h | h
            · exact h
            · exact absurd h hn2
            · exact absurd h hn1
            · exact absurd h hn3
          constructor
          · exact Or.inr (Or.inl hpend)
          · intro hne
            exact absurd hpend hne
      · rw [if_neg ht]
        exact ⟨r, h1, Or.inl rfl, fun _ => rfl⟩

theorem cancel_step (sha : String → String) (ticket : ℕ) (n : String) (ts : ℤ)
    (s : MMState) (hwf : mmWF s) :
    mmWF (cancel_match sha ticket n ts s) ∧
    ∀ t r, lookupReq s t = some r →
      ∃ r', lookupReq (cancel_match sha ticket n ts s) t = some r' ∧
        statusStep r.status r'.status ∧
        (r.status ≠ ("pending") → r'.reserved_ai = r.reserved_ai) := by
  unfold cancel_match
  cases hl : lookupReq s ticket with
  | none =>
    dsimp only
    exact ⟨hwf, fun t r h1 => ⟨r, h1, Or.inl rfl, fun _ => rfl⟩⟩
  | some req =>
    dsimp only
    by_cases hp : req.status = ("pending")
    · rw [if_pos hp]
      constructor
      · exact mmWF_updateReq s ticket _ hwf (fun r0 => Or.inr (by tauto))
      · intro t r h1
        rw [lookupReq_updateReq]
        by_cases ht : t = ticket
        · subst ht
          rw [if_pos rfl, h1]
          have hreq : r = req := by
            rw [h1] at hl
            exact (Option.some.injEq _ _ ▸ hl)
          refine ⟨_, rfl, ?_, fun _ => rfl⟩
          rw [hreq]
          exact Or.inr (Or.inl hp)
        · rw [if_neg ht]
          exact ⟨r, h1, Or.inl rfl, fun _ => rfl⟩
    · rw [if_neg hp]
      by_cases hh : req.status = ("ready_h2h")
      · rw [if_pos hh]
        have hs1 : ∀ (s1 : MMState),
            (mmWF s1 ∧ ∀ t r, lookupReq s t = some r →
              ∃ r', lookupReq s1 t = some r' ∧ statusStep r.status r'.status ∧
                r'.reserved_ai = r.reserved_ai) →
            mmWF (updateReq s1 ticket (fun r => { r with status := "canceled" })) ∧
            ∀ t r, lookupReq s t = some r →
              ∃ r', lookupReq (updateReq s1 ticket
                  (fun r => { r with status := "canceled" })) t = some r' ∧
                statusStep r.status r'.status ∧
                (r.status ≠ ("pending") → r'.reserved_ai = r.reserved_ai) := by
          intro s1 ⟨hwf1, hstep1⟩
          constructor
          · exact mmWF_updateReq s1 ticket _ hwf1 (fun r0 => Or.inr (by tauto))
          · intro t r h1
            obtain ⟨r1, hr1, hstep, hres⟩ := hstep1 t r h1
            rw [lookupReq_updateReq]
            by_cases ht : t = ticket
            · subst ht
              rw [if_pos rfl, hr1]
              have hreq : r = req := by
                rw [h1] at hl
                exact (Option.some.injEq _ _ ▸ hl)
              refine ⟨_, rfl, ?_, fun _ => by dsimp only; rw [hres]⟩
              rw [hreq]
              exact Or.inr (Or.inr ⟨hh ▸ hreq ▸ rfl, Or.inr rfl⟩)
            · rw [if_neg ht]
              exact ⟨r1, hr1, hstep, fun _ => hres⟩
        cases hpid : req.pair_id with
        | none =>
          exact hs1 s ⟨hwf, fun t r h1 => ⟨r, h1, Or.inl rfl, rfl⟩⟩
        | some pid =>
          dsimp only
          cases hpl : s.pairs.lookup pid with
          | none =>
            exact hs1 s ⟨hwf, fun t r h1 => ⟨r, h1, Or.inl rfl, rfl⟩⟩
          | some pair =>
            dsimp only
            cases hlo : lookupReq s
                (if pair.a_ticket = ticket then pair.b_ticket else pair.a_ticket) with
            | none =>
              apply hs1
              exact ⟨mmWF_set_pairs _ _ hwf,
                fun t r h1 => ⟨r, h1, Or.inl rfl, rfl⟩⟩
            | some other =>
              dsimp only
              by_cases hos : other.status = ("ready_h2h")
              · rw [if_pos hos]
                apply hs1
                refine ⟨mmWF_set_pairs _ _ (mmWF_updateReq s _ _ hwf
                  (fun r0 => Or.inr (by tauto))), ?_⟩
                intro t r h1
                rw [lookupReq_set_pairs, lookupReq_updateReq]
                by_cases ht : t =
                    (if pair.a_ticket = ticket then pair.b_ticket else pair.a_ticket)
                · rw [if_pos ht, h1]
                  have hro : r = other := by
                    rw [ht, hlo] at h1
                    exact (Option.some.injEq _ _ ▸ h1.symm)
                  refine ⟨_, rfl, ?_, rfl⟩
                  rw [hro]
                  exact Or.inr (Or.inr ⟨hos, Or.inl rfl⟩)
                · rw [if_neg ht]
                  exact ⟨r, h1, Or.inl rfl, rfl⟩
              · rw [if_neg hos]
                apply hs1
                exact ⟨mmWF_set_pairs _ _ hwf,
                  fun t r h1 => ⟨r, h1, Or.inl rfl, rfl⟩⟩
      · rw [if_neg hh]
        exact ⟨hwf, fun t r h1 => ⟨r, h1, Or.inl rfl, fun _ => rfl⟩⟩

theorem keys_dictInsert_fresh (l : List (ℕ × PendingReq)) (k : ℕ)
    (v : PendingReq) (hk : l.lookup k = none) :
    (dictInsert l k v).map Prod.fst = l.map Prod.fst ++ [k] := by
  unfold dictInsert
  rw [hk]
  simp

theorem mmWF_insert (s : MMState) (k : ℕ) (v : PendingReq)
    (hk : lookupReq s k = none) (hwf : mmWF s)
    (hv : v.status = ("pending") ∨ v.status = ("ready_ai") ∨
      v.status = ("ready_h2h") ∨ v.status = ("canceled")) :
    mmWF { s with pending_requests := dictInsert s.pending_requests k v } := by
  constructor
  · dsimp only
    rw [keys_dictInsert_fresh _ _ _ hk, List.nodup_append]
    refine ⟨hwf.1, List.nodup_singleton _, ?_⟩
    intro a ha hb
    rw [List.mem_singleton] at hb
    subst hb
    exact not_mem_keys_of_lookup_eq_none _ _ hk ha
  · have hk2 : List.lookup k s.pending_requests = none := hk
    unfold statusWF dictInsert at *
    dsimp only
    rw [hk2]
    simp only [Option.isSome_none, Bool.false_eq_true, if_false,
      List.all_append, Bool.and_eq_true]
    refine ⟨hwf.2, ?_⟩
    simp only [List.all_cons, List.all_nil, Bool.and_true, Bool.or_eq_true,
      beq_iff_eq]
    tauto

theorem match_request_step (sha : String → String) (ticket : ℕ)
    (token : Option String) (now window : ℚ) (heads pick_cur : Bool)
    (pid : String) (n1 : String) (ts1 : ℤ) (n2 : String) (ts2 : ℤ)
    (s : MMState) (hwf : mmWF s) (hfr : lookupReq s ticket = none) :
    mmWF (match_request sha ticket token now window heads pick_cur pid n1 ts1
      n2 ts2 s) ∧
    ∀ t r, lookupReq s t = some r →
      ∃ r', lookupReq (match_request sha ticket token now window heads pick_cur
          pid n1 ts1 n2 ts2 s) t = some r' ∧
        statusStep r.status r'.status ∧
        (r.status ≠ ("pending") → r'.reserved_ai = r.reserved_ai) := by
  unfold match_request
  dsimp only
  have hwf1 : mmWF { s with
      pending_requests := dictInsert s.pending_requests ticket (PendingReq.init ticket token now window) } :=
    mmWF_insert s ticket _ hfr hwf (Or.inl rfl)
  have hlook1 : ∀ t, t ≠ ticket →
      lookupReq { s with
        pending_requests := dictInsert s.pending_requests ticket (PendingReq.init ticket token now window) } t =
      lookupReq s t := by
    intro t ht
    unfold lookupReq
    dsimp only
    rw [lookup_dictInsert _ _ _ hfr, if_neg ht]
  have htne : ∀ t (r : PendingReq), lookupReq s t = some r → t ≠ ticket := by
    intro t r h1 he
    rw [he, hfr] at h1
    cases h1
  unfold try_pair_with_oldest
  cases hc : findCandidate (dictInsert s.pending_requests ticket
      (PendingReq.init ticket token now window)) ticket now with
  | none =>
    dsimp only
    refine ⟨hwf1, ?_⟩
    intro t r h1
    refine ⟨r, ?_, Or.inl rfl, fun _ => rfl⟩
    rw [hlook1 t (htne t r h1)]
    exact h1
  | some cand =>
    obtain ⟨hcne, rc, hmem, hst, hres, hexp⟩ := findCandidate_spec _ _ _ _ hc
    have hlc : lookupReq { s with
        pending_requests := dictInsert s.pending_requests ticket (PendingReq.init ticket token now window) } cand.1 =
        some rc := mem_lookup_of_nodup _ _ _ hwf1.1 hmem
    dsimp only
    by_cases hh : heads = true
    · rw [if_pos hh]
      constructor
      · exact mmWF_set_pairs _ _ (mmWF_updateReq _ ticket _
          (mmWF_updateReq _ cand.1 _ hwf1 (fun r0 => Or.inr (by tauto)))
          (fun r0 => Or.inr (by tauto)))
      · intro t r h1
        have ht : t ≠ ticket := htne t r h1
        rw [lookupReq_set_pairs, lookupReq_updateReq, if_neg ht,
          lookupReq_updateReq]
        by_cases htc : t = cand.1
        · rw [if_pos htc, hlook1 t ht, h1]
          rw [← htc] at hlc
          have hrc : r = rc := by
            rw [hlook1 t ht, h1] at hlc
            exact (Option.some.injEq _ _ ▸ hlc)
          refine ⟨_, rfl, ?_, fun _ => rfl⟩
          rw [hrc]
          exact Or.inr (Or.inl hst)
        · rw [if_neg htc, hlook1 t ht]
          exact ⟨r, h1, Or.inl rfl, fun _ => rfl⟩
    · rw [if_neg hh]
      constructor
      · exact mmWF_updateReq _ _ _ hwf1 (fun r0 => Or.inl rfl)
      · intro t r h1
        have ht : t ≠ ticket := htne t r h1
        rw [lookupReq_updateReq]
        by_cases htc : t = (if pick_cur = true then ticket else cand.1)
        · rw [if_pos htc, hlook1 t ht, h1]
          by_cases hpick : pick_cur = true
          · rw [if_pos hpick] at htc
            exact absurd htc ht
          · rw [if_neg hpick] at htc
            rw [← htc] at hlc
            have hrc : r = rc := by
              rw [hlook1 t ht, h1] at hlc
              exact (Option.some.injEq _ _ ▸ hlc)
            refine ⟨_, rfl, Or.inl rfl, ?_⟩
            intro hne
            rw [hrc] at hne
            exact absurd hst hne
        · rw [if_neg htc, hlook1 t ht]
          exact ⟨r, h1, Or.inl rfl, fun _ => rfl⟩

theorem applyOp_step (sha : String → String) (op : MMOp) (s : MMState)
    (hwf : mmWF s)
    (hfr : (match op with
      | .request t _ _ _ _ _ _ _ _ _ _ => (lookupReq s t).isNone
      | _ => true) = true) :
    mmWF (op.applyOp sha s) ∧
    ∀ t r, lookupReq s t = some r →
      ∃ r', lookupReq (op.applyOp sha s) t = some r' ∧
        statusStep r.status r'.status ∧
        (r.status ≠ ("pending") → r'.reserved_ai = r.reserved_ai) := by
  cases op with
  | request ticket token now window heads pick_cur pid n1 ts1 n2 ts2 =>
    exact match_request_step sha ticket token now window heads pick_cur pid
      n1 ts1 n2 ts2 s hwf (Option.isNone_iff_eq_none.mp hfr)
  | statusQ ticket now n ts =>
    exact match_status_step sha ticket now n ts s hwf
  | cancel ticket n ts =>
    exact cancel_step sha ticket n ts s hwf

theorem statusStep_trans (a b c : String) (h1 : statusStep a b)
    (h2 : statusStep b c) : statusStep a c := by
  unfold statusStep at *
  rcases h1 with rfl | ha | ⟨ha, hb⟩
  · exact h2
  · exact Or.inr (Or.inl ha)
  · rcases hb with rfl | rfl
    · rcases h2 with rfl | hb2 | ⟨hb2, -⟩
      · exact Or.inr (Or.inr ⟨ha, Or.inl rfl⟩)
      · exact absurd hb2 (by decide)
      · exact absurd hb2 (by decide)
    · rcases h2 with rfl | hb2 | ⟨hb2, -⟩
      · exact Or.inr (Or.inr ⟨ha, Or.inr rfl⟩)
      · exact absurd hb2 (by decide)
      · exact absurd hb2 (by decide)

theorem statusStep_nonpending (a b : String) (h : statusStep a b)
    (ha : a ≠ ("pending")) : b ≠ ("pending") := by
  unfold statusStep at h
  rcases h with rfl | h2 | ⟨-, hb⟩
  · exact ha
  · exact absurd h2 ha
  · rcases hb with rfl | rfl <;> decide

/-- C5 (amended): ticket statuses never return to `pending`: every
transition is `pending → {ready_ai, ready_h2h, canceled}` or — caused by
`cancel_match` on a paired ticket — `ready_h2h → canceled` (the cancelled
ticket itself) or `ready_h2h → ready_ai` (its partner); `ready_ai` and
`canceled` are terminal.  Once a ticket's status is non-`pending`, its
`reserved_ai` flag is never mutated again.  This holds over any sequence of
request, status-resolution and cancel operations from any well-formed
store, with request tickets fresh. -/
theorem ticket_status_monotone (sha : String → String) (ops : List MMOp)
    (s : MMState) (hwf : mmWF s) (hfr : freshTickets sha ops s = true)
    (t : ℕ) (r r' : PendingReq) (h1 : lookupReq s t = some r)
    (h2 : lookupReq (applyOps sha ops s) t = some r') :
    statusStep r.status r'.status ∧
    (r.status ≠ ("pending") → r'.reserved_ai = r.reserved_ai) := by
  induction ops generalizing s r with
  | nil =>
    unfold applyOps at h2
    rw [List.foldl_nil, h1] at h2
    have : r = r' := Option.some.injEq _ _ ▸ h2
    rw [← this]
    exact ⟨Or.inl rfl, fun _ => rfl⟩
  | cons op rest ih =>
    unfold freshTickets at hfr
    rw [Bool.and_eq_true] at hfr
    obtain ⟨hwf2, hstep⟩ := applyOp_step sha op s hwf hfr.1
    obtain ⟨r1, hr1, hst1, hres1⟩ := hstep t r h1
    have happly : applyOps sha (op :: rest) s =
        applyOps sha rest (op.applyOp sha s) := rfl
    rw [happly] at h2
    obtain ⟨hst2, hres2⟩ := ih (op.applyOp sha s) hwf2 hfr.2 r1 hr1 h2
    refine ⟨statusStep_trans _ _ _ hst1 hst2, ?_⟩
    intro hne
    rw [hres2 (statusStep_nonpending _ _ hst1 hne)]
    exact hres1 hne

/-- The identity function as the uninterpreted SHA-256 stand-in for the
concrete matchmaking runs. -/
def cexSha : String → String := fun x => x

/-- Empty store. -/
def mmCexS0 : MMState := { pending_requests := [], pairs := [] }

/-- Two overlapping requests with a heads coin: both tickets end READY_H2H,
paired as `"p"`. -/
def mmCexS2 : MMState :=
  applyOps cexSha
    [MMOp.request 1 none 0 10 true true ("p") ("na") 1 ("nb") 2,
     MMOp.request 2 none 1 10 true true ("p") ("na") 1 ("nb") 2] mmCexS0

/-- Ticket 1 then cancels: the partner (ticket 2) is converted to AI. -/
def mmCexS3 : MMState :=
  (MMOp.cancel 1 ("nc") 3).applyOp cexSha mmCexS2

/-- C5 counterexample: ticket 2 reaches the non-PENDING status READY_H2H and
then transitions AGAIN (to READY_AI) when its partner cancels — so a ticket
does not make at most one transition out of PENDING. -/
theorem h2h_partner_second_transition :
    (lookupReq mmCexS2 2).map PendingReq.status = some ("ready_h2h") ∧
    (lookupReq mmCexS3 2).map PendingReq.status = some ("ready_ai") ∧
    (("ready_h2h" : String) ≠ ("pending")) ∧
    (("ready_ai" : String) ≠ ("ready_h2h")) := by
  refine ⟨?_, ?_, by decide, by decide⟩
  · norm_num [mmCexS2, mmCexS0, cexSha, applyOps, MMOp.applyOp, match_request,
      try_pair_with_oldest, findCandidate, dictInsert, updateReq, lookupReq,
      PendingReq.init, commit_selection, lookup_cons_ite, List.lookup_nil]
  · norm_num [mmCexS3, mmCexS2, mmCexS0, cexSha, applyOps, MMOp.applyOp,
      match_request, try_pair_with_oldest, findCandidate, dictInsert,
      updateReq, lookupReq, PendingReq.init, commit_selection, cancel_match,
      commit_assignment, lookup_cons_ite, List.lookup_nil,
      show ¬ (("ready_h2h" : String) = ("pending")) from by decide]

/-- A one-ticket store for the C5 witness. -/
def mmWitS : MMState :=
  { pending_requests := [(1, PendingReq.init 1 none 0 10)], pairs := [] }

/-- A single cancel operation for the C5 witness. -/
def mmWitOps : List MMOp := [MMOp.cancel 1 ("n") 0]

theorem ticket_status_monotone_witness :
    mmWF mmWitS ∧ freshTickets cexSha mmWitOps mmWitS = true ∧
    lookupReq mmWitS 1 = some (PendingReq.init 1 none 0 10) ∧
    lookupReq (applyOps cexSha mmWitOps mmWitS) 1 =
      some { PendingReq.init 1 none 0 10 with status := "canceled" } ∧
    (statusStep (PendingReq.init 1 none 0 10).status
        ({ PendingReq.init 1 none 0 10 with status := "canceled" }).status ∧
      ((PendingReq.init 1 none 0 10).status ≠ ("pending") →
        ({ PendingReq.init 1 none 0 10 with status := "canceled" }).reserved_ai =
          (PendingReq.init 1 none 0 10).reserved_ai)) :=
  ⟨by decide, by decide, rfl, rfl,
    ticket_status_monotone cexSha mmWitOps mmWitS (by decide) (by decide) 1
      (PendingReq.init 1 none 0 10)
      { PendingReq.init 1 none 0 10 with status := "canceled" } rfl rfl⟩
